import Mathlib

/-!
# LC-3 virtual machine (`src/lc3.c`): shallow embedding and verified properties

Machine words (`uint16_t`) are natural numbers kept below `2 ^ 16`; every C
conversion to `uint16_t` is an explicit `% 65536`.  The two global arrays
`memory[MEMORY_MAX]` and `reg[R_COUNT]` are functions from index to word, and an
array assignment `a[i] = v` is `store a i v`.  The console is part of the
machine state: the answers of successive `check_key()` calls, the bytes still
to be delivered by `getchar()`, and the bytes written to `stdout` so far.

The host is the one the source is written for (`<Windows.h>`, `<conio.h>`):
little-endian, 32-bit `int`, 8-bit signed plain `char`.
-/

namespace LC3

/-! ## Enumerations and constants -/

/-- Register index `R_R0`. -/
def R_R0 : Nat := 0
/-- Register index `R_R7`. -/
def R_R7 : Nat := 7
/-- Register index `R_PC`. -/
def R_PC : Nat := 8
/-- Register index `R_COND`. -/
def R_COND : Nat := 9

def OP_BR : Nat := 0
def OP_ADD : Nat := 1
def OP_LD : Nat := 2
def OP_ST : Nat := 3
def OP_JSR : Nat := 4
def OP_AND : Nat := 5
def OP_LDR : Nat := 6
def OP_STR : Nat := 7
def OP_RTI : Nat := 8
def OP_NOT : Nat := 9
def OP_LDI : Nat := 10
def OP_STI : Nat := 11
def OP_JMP : Nat := 12
def OP_RES : Nat := 13
def OP_LEA : Nat := 14
def OP_TRAP : Nat := 15

/-- Flag `FL_POS = 1 << 0`. -/
def FL_POS : Nat := 1
/-- Flag `FL_ZRO = 1 << 1`. -/
def FL_ZRO : Nat := 2
/-- Flag `FL_NEG = 1 << 2`. -/
def FL_NEG : Nat := 4

def TRAP_GETC : Nat := 0x20
def TRAP_OUT : Nat := 0x21
def TRAP_PUTS : Nat := 0x22
def TRAP_IN : Nat := 0x23
def TRAP_PUTSP : Nat := 0x24
def TRAP_HALT : Nat := 0x25

/-- Keyboard status register address. -/
def MR_KBSR : Nat := 0xFE00
/-- Keyboard data register address. -/
def MR_KBDR : Nat := 0xFE02

/-- Number of cells of `memory[]`: `1 << 16`. -/
def MEMORY_MAX : Nat := 65536

/-- Start address `PC_START` of `main`. -/
def PC_START : Nat := 0x3000

/-! ## Machine state -/

/-- Array assignment `a[i] = v`. -/
def store (a : Nat → Nat) (i v : Nat) : Nat → Nat :=
  fun j => if j = i then v else a j

/-- The globals `memory[]` and `reg[]`, the local `running` of `main`, and the
console: `keys` are the answers of the coming `check_key()` calls (none left:
no key), `stdin` the bytes the coming `getchar()` calls deliver (none left:
`EOF`), `stdout` the bytes written so far. -/
structure VM where
  memory : Nat → Nat
  reg : Nat → Nat
  keys : List Bool
  stdin : List Nat
  stdout : List Nat
  running : Bool

/-- Conversion of an `int` to `uint16_t`. -/
def to_u16 (v : Int) : Nat := (v % 65536).toNat

/-- Conversion of an `int` to the signed 8-bit plain `char` of the host. -/
def to_char (v : Int) : Int :=
  if v % 256 < 128 then v % 256 else v % 256 - 256

/-- The byte `putc` writes for an `int` argument: its conversion to
`unsigned char`. -/
def to_uchar (v : Int) : Nat := (v % 256).toNat

/-- Function `check_key()`: 1 when the console reports a pending key, else 0. -/
def check_key (s : VM) : Nat × VM :=
  match s.keys with
  | [] => (0, s)
  | k :: ks => ((if k then 1 else 0), { s with keys := ks })

/-- Function `getchar()`: the next input byte as a non-negative `int`, or `EOF = -1`. -/
def getchar (s : VM) : Int × VM :=
  match s.stdin with
  | [] => (-1, s)
  | b :: bs => (Int.ofNat (b % 256), { s with stdin := bs })

/-- Function `mem_read(address)`: a read of `MR_KBSR` first polls the keyboard. -/
def mem_read (address : Nat) (s : VM) : Nat × VM :=
  if address = MR_KBSR then
    let k := check_key s
    if k.1 ≠ 0 then
      let s1 : VM := { k.2 with memory := store k.2.memory MR_KBSR (1 <<< 15) }
      let g := getchar s1
      let s2 : VM := { g.2 with memory := store g.2.memory MR_KBDR (to_u16 g.1) }
      (s2.memory address, s2)
    else
      let s1 : VM := { k.2 with memory := store k.2.memory MR_KBSR 0 }
      (s1.memory address, s1)
  else
    (s.memory address, s)

/-- Function `mem_write(address, value)`. -/
def mem_write (address value : Nat) (s : VM) : VM :=
  { s with memory := store s.memory address value }

/-- Function `swap16(x)`: `(x << 8) | (x >> 8)` computed in `int`, returned as `uint16_t`. -/
def swap16 (x : Nat) : Nat := ((x <<< 8) ||| (x >>> 8)) % 65536

/-- Function `sign_extend(x, bit_count)`: `x |= 0xFFFF << bit_count` is computed in `int`
and stored back into the `uint16_t` parameter.  The C shifts are defined for
`1 ≤ bit_count ≤ 15`; every call in `main` passes 5, 6, 9 or 11. -/
def sign_extend (x : Nat) (bit_count : Nat) : Nat :=
  if (x >>> (bit_count - 1)) &&& 1 ≠ 0 then (x ||| (0xFFFF <<< bit_count)) % 65536 else x

/-- Function `update_flags(r)`. -/
def update_flags (r : Nat) (s : VM) : VM :=
  if s.reg r = 0 then { s with reg := store s.reg R_COND FL_ZRO }
  else if s.reg r >>> 15 ≠ 0 then { s with reg := store s.reg R_COND FL_NEG }
  else { s with reg := store s.reg R_COND FL_POS }

/-! ## Image loader -/

/-- Function `fread(p, sizeof(uint16_t), max_read, file)` of the C library on
the little-endian host: the bytes of the stream are stored, in the order read,
into the cells from `p` on, for at most `max_read` cells; the result is the
number of complete cells read, together with the memory.  When the stream ends
in the middle of a cell, the byte already read has been stored (it is the low
byte of that cell) and the cell is not counted; C leaves the value of such a
partly read element indeterminate. -/
def fread (memory : Nat → Nat) (p : Nat) : Nat → List Nat → Nat × (Nat → Nat)
  | 0, _ => (0, memory)
  | _ + 1, [] => (0, memory)
  | _ + 1, [lo] => (0, store memory p (memory p / 256 * 256 + lo))
  | n + 1, lo :: hi :: rest =>
    let r := fread (store memory p (lo + 256 * hi)) (p + 1) n rest
    (r.1 + 1, r.2)

/-- The loop `while (read-- > 0) { *p = swap16(*p); ++p; }`. -/
def swap_pass (memory : Nat → Nat) (p : Nat) : Nat → (Nat → Nat)
  | 0 => memory
  | n + 1 => swap_pass (store memory p (swap16 (memory p))) (p + 1) n

/-- The value of `read` in `read_image_file`: how many body words are stored.
`none` when the stream is too short to hold the origin (the C code then uses
an uninitialised `origin`). -/
def words_stored (file : List Nat) (memory : Nat → Nat) : Option Nat :=
  match file with
  | b0 :: b1 :: body =>
    let origin := swap16 (b0 + 256 * b1)
    let max_read := (MEMORY_MAX - origin) % 65536
    some (fread memory origin max_read body).1
  | _ => none

/-- Function `read_image_file(file)`: the memory after loading the byte stream
`file`.  The first `fread` fills the two bytes of `origin` in host order (first
byte low), `swap16` turns them round; `max_read` is the `uint16_t` value of
`MEMORY_MAX - origin`.  `none` when the stream is too short to hold the origin. -/
def read_image_file (file : List Nat) (memory : Nat → Nat) : Option (Nat → Nat) :=
  match file with
  | b0 :: b1 :: body =>
    let origin := swap16 (b0 + 256 * b1)
    let max_read := (MEMORY_MAX - origin) % 65536
    let p := origin
    let r := fread memory p max_read body
    some (swap_pass r.2 p r.1)
  | _ => none

/-! ## Interpreter -/

/-- Switch arm `case OP_BR`. -/
def op_BR (instr : Nat) (s : VM) : VM :=
  let flags := (instr >>> 9) &&& 0x7
  let pcOffset9 := sign_extend (instr &&& 0x1FF) 9
  if flags &&& s.reg R_COND ≠ 0 then
    { s with reg := store s.reg R_PC ((s.reg R_PC + pcOffset9) % 65536) }
  else s

/-- Switch arm `case OP_ADD`. -/
def op_ADD (instr : Nat) (s : VM) : VM :=
  let dr := (instr >>> 9) &&& 0x7
  let sr1 := (instr >>> 6) &&& 0x7
  let imm_flag := (instr >>> 5) &&& 0x1
  if imm_flag ≠ 0 then
    let imm5 := sign_extend (instr &&& 0x1F) 5
    update_flags dr { s with reg := store s.reg dr ((s.reg sr1 + imm5) % 65536) }
  else
    let sr2 := instr &&& 0x7
    update_flags dr { s with reg := store s.reg dr ((s.reg sr1 + s.reg sr2) % 65536) }

/-- Switch arm `case OP_LD`. -/
def op_LD (instr : Nat) (s : VM) : VM :=
  let dr := (instr >>> 9) &&& 0x7
  let pcOffset9 := sign_extend (instr &&& 0x1FF) 9
  let f := mem_read ((s.reg R_PC + pcOffset9) % 65536) s
  update_flags dr { f.2 with reg := store f.2.reg dr f.1 }

/-- Switch arm `case OP_ST`. -/
def op_ST (instr : Nat) (s : VM) : VM :=
  let sr := (instr >>> 9) &&& 0x7
  let pcOffset9 := sign_extend (instr &&& 0x1FF) 9
  mem_write ((s.reg R_PC + pcOffset9) % 65536) (s.reg sr) s

/-- Switch arm `case OP_JSR`. -/
def op_JSR (instr : Nat) (s : VM) : VM :=
  let s1 : VM := { s with reg := store s.reg R_R7 (s.reg R_PC) }
  if (instr >>> 11) &&& 0x1 ≠ 0 then
    let pcOffset11 := sign_extend (instr &&& 0x7FF) 11
    { s1 with reg := store s1.reg R_PC ((s1.reg R_PC + pcOffset11) % 65536) }
  else
    let r := (instr >>> 6) &&& 0x7
    { s1 with reg := store s1.reg R_PC (s1.reg r) }

/-- Switch arm `case OP_AND`. -/
def op_AND (instr : Nat) (s : VM) : VM :=
  let dr := (instr >>> 9) &&& 0x7
  let sr1 := (instr >>> 6) &&& 0x7
  let imm_flag := (instr >>> 5) &&& 0x1
  if imm_flag ≠ 0 then
    let imm5 := sign_extend (instr &&& 0x1F) 5
    update_flags dr { s with reg := store s.reg dr (s.reg sr1 &&& imm5) }
  else
    let sr2 := instr &&& 0x7
    update_flags dr { s with reg := store s.reg dr (s.reg sr1 &&& s.reg sr2) }

/-- Switch arm `case OP_LDR`. -/
def op_LDR (instr : Nat) (s : VM) : VM :=
  let dr := (instr >>> 9) &&& 0x7
  let r := (instr >>> 6) &&& 0x7
  let offset6 := sign_extend (instr &&& 0x3F) 6
  let f := mem_read ((s.reg r + offset6) % 65536) s
  update_flags dr { f.2 with reg := store f.2.reg dr f.1 }

/-- Switch arm `case OP_STR`. -/
def op_STR (instr : Nat) (s : VM) : VM :=
  let sr := (instr >>> 9) &&& 0x7
  let r := (instr >>> 6) &&& 0x7
  let offset6 := sign_extend (instr &&& 0x3F) 6
  mem_write ((s.reg r + offset6) % 65536) (s.reg sr) s

/-- Switch arm `case OP_NOT`: `~reg[sr]` is computed in `int` and stored as `uint16_t`,
which complements the 16 bits of the word. -/
def op_NOT (instr : Nat) (s : VM) : VM :=
  let dr := (instr >>> 9) &&& 0x7
  let sr := (instr >>> 6) &&& 0x7
  update_flags dr { s with reg := store s.reg dr ((s.reg sr ^^^ 0xFFFF) % 65536) }

/-- Switch arm `case OP_LDI`. -/
def op_LDI (instr : Nat) (s : VM) : VM :=
  let dr := (instr >>> 9) &&& 0x7
  let pcOffset9 := sign_extend (instr &&& 0x1FF) 9
  let f1 := mem_read ((s.reg R_PC + pcOffset9) % 65536) s
  let f2 := mem_read f1.1 f1.2
  update_flags dr { f2.2 with reg := store f2.2.reg dr f2.1 }

/-- Switch arm `case OP_STI`. -/
def op_STI (instr : Nat) (s : VM) : VM :=
  let sr := (instr >>> 9) &&& 0x7
  let pcOffset9 := sign_extend (instr &&& 0x1FF) 9
  let f := mem_read ((s.reg R_PC + pcOffset9) % 65536) s
  mem_write f.1 (f.2.reg sr) f.2

/-- Switch arm `case OP_JMP`. -/
def op_JMP (instr : Nat) (s : VM) : VM :=
  let r := (instr >>> 6) &&& 0x7
  { s with reg := store s.reg R_PC (s.reg r) }

/-- Switch arm `case OP_LEA`. -/
def op_LEA (instr : Nat) (s : VM) : VM :=
  let dr := (instr >>> 9) &&& 0x7
  let pcOffset9 := sign_extend (instr &&& 0x1FF) 9
  update_flags dr { s with reg := store s.reg dr ((s.reg R_PC + pcOffset9) % 65536) }

/-- The loop of `TRAP_PUTS`, `while (*c) { putc((char)*c, stdout); ++c; }`, with
`c = memory + a` and `room = MEMORY_MAX - a` cells of `memory[]` left from `c`
on.  `none`: the pointer has left the array. -/
def puts_loop (memory : Nat → Nat) : Nat → Nat → List Nat → Option (List Nat)
  | 0, _, _ => none
  | room + 1, a, out =>
    if memory a ≠ 0 then puts_loop memory room (a + 1) (out ++ [memory a % 256])
    else some out

/-- The loop of `TRAP_PUTSP`: low byte, then the high byte when it is not zero. -/
def putsp_loop (memory : Nat → Nat) : Nat → Nat → List Nat → Option (List Nat)
  | 0, _, _ => none
  | room + 1, a, out =>
    if memory a ≠ 0 then
      let c1 := memory a &&& 0xFF
      let c2 := memory a >>> 8
      putsp_loop memory room (a + 1)
        (if c2 ≠ 0 then out ++ [c1] ++ [c2 % 256] else out ++ [c1])
    else some out

/-- The bytes of `"Enter a character..."`. -/
def prompt : List Nat :=
  [69, 110, 116, 101, 114, 32, 97, 32, 99, 104, 97, 114, 97, 99, 116, 101, 114, 46, 46, 46]

/-- The bytes `puts("HALT")` writes: `"HALT"` and a newline. -/
def halt_text : List Nat := [72, 65, 76, 84, 10]

/-- Switch arm `case OP_TRAP`.  `none`: a string trap ran off the end of `memory[]`. -/
def op_TRAP (instr : Nat) (s0 : VM) : Option VM :=
  let s : VM := { s0 with reg := store s0.reg R_R7 (s0.reg R_PC) }
  let v := instr &&& 0xFF
  if v = TRAP_GETC then
    let g := getchar s
    some (update_flags R_R0 { g.2 with reg := store g.2.reg R_R0 (to_u16 g.1) })
  else if v = TRAP_OUT then
    some { s with stdout := s.stdout ++ [s.reg R_R0 % 256] }
  else if v = TRAP_PUTS then
    (puts_loop s.memory (MEMORY_MAX - s.reg R_R0) (s.reg R_R0) s.stdout).map
      (fun out => { s with stdout := out })
  else if v = TRAP_IN then
    let s1 : VM := { s with stdout := s.stdout ++ prompt }
    let g := getchar s1
    let c := to_char g.1
    let s2 : VM := { g.2 with stdout := g.2.stdout ++ [to_uchar c] }
    some (update_flags R_R0 { s2 with reg := store s2.reg R_R0 (to_u16 c) })
  else if v = TRAP_PUTSP then
    (putsp_loop s.memory (MEMORY_MAX - s.reg R_R0) (s.reg R_R0) s.stdout).map
      (fun out => { s with stdout := out })
  else if v = TRAP_HALT then
    some { s with stdout := s.stdout ++ halt_text, running := false }
  else some s

/-- The `switch (op)` of `main` on `op = instr >> 12`.  `none`: `abort()`
(no 16-bit instruction reaches it) or a string trap that left `memory[]`. -/
def exec (instr : Nat) (s : VM) : Option VM :=
  let op := instr >>> 12
  if op = OP_BR then some (op_BR instr s)
  else if op = OP_ADD then some (op_ADD instr s)
  else if op = OP_LD then some (op_LD instr s)
  else if op = OP_ST then some (op_ST instr s)
  else if op = OP_JSR then some (op_JSR instr s)
  else if op = OP_AND then some (op_AND instr s)
  else if op = OP_LDR then some (op_LDR instr s)
  else if op = OP_STR then some (op_STR instr s)
  else if op = OP_RTI then some s
  else if op = OP_NOT then some (op_NOT instr s)
  else if op = OP_LDI then some (op_LDI instr s)
  else if op = OP_STI then some (op_STI instr s)
  else if op = OP_JMP then some (op_JMP instr s)
  else if op = OP_RES then some s
  else if op = OP_LEA then some (op_LEA instr s)
  else if op = OP_TRAP then op_TRAP instr s
  else none

/-- The fetch `instr = mem_read(reg[R_PC]++)`: the word read at the old `PC`,
and the state with `PC` advanced. -/
def fetch (s : VM) : Nat × VM :=
  mem_read (s.reg R_PC) { s with reg := store s.reg R_PC ((s.reg R_PC + 1) % 65536) }

/-- One pass through the body of `while (running)`. -/
def step (s : VM) : Option VM :=
  exec (fetch s).1 (fetch s).2

/-- The state `main` enters its loop with: `memory` as the loaded images left
it, the registers zero except `COND = FL_ZRO` and `PC = PC_START`. -/
def reset (memory : Nat → Nat) (keys : List Bool) (stdin : List Nat) : VM :=
  { memory := memory
    reg := store (store (fun _ => 0) R_COND FL_ZRO) R_PC PC_START
    keys := keys
    stdin := stdin
    stdout := []
    running := true }

/-- The first `n` passes of `while (running)`, stopping early once `running`
is cleared. -/
def iterate : Nat → VM → Option VM
  | 0, s => some s
  | n + 1, s => if s.running then (step s).bind (iterate n) else some s

/-- The loop `while (running)` with a bound on the number of passes: `none`
when the bound is used up before `running` is cleared, or a pass has no
defined result. -/
def run : Nat → VM → Option VM
  | 0, s => if s.running then none else some s
  | n + 1, s => if s.running then (step s).bind (run n) else some s

/-- COND holds exactly one of the three flags. -/
def one_hot (c : Nat) : Prop := c = FL_NEG ∨ c = FL_ZRO ∨ c = FL_POS

instance (c : Nat) : Decidable (one_hot c) := by unfold one_hot; infer_instance

/-- Every word of the machine fits the `uint16_t` it is stored in. -/
def WF (s : VM) : Prop := (∀ a, s.memory a < 65536) ∧ (∀ r, s.reg r < 65536)

/-- The N/Z/P flag of a 16-bit word, as the specification words it: N when
bit 15 is set, Z when the word is zero, P otherwise. -/
def flag_of (v : Nat) : Nat :=
  if v.testBit 15 then FL_NEG else if v = 0 then FL_ZRO else FL_POS

/-- A string trap: the only instructions whose execution can leave `memory[]`. -/
def is_string_trap (instr : Nat) : Prop :=
  instr >>> 12 = OP_TRAP ∧ (instr &&& 0xFF = TRAP_PUTS ∨ instr &&& 0xFF = TRAP_PUTSP)

/-- A state with the given memory and registers, an idle console and the
interpreter running. -/
def state_of (memory reg : Nat → Nat) : VM :=
  { memory := memory, reg := reg, keys := [], stdin := [], stdout := [], running := true }

/-- The six words of end-to-end scenario 3 at 0x3000..0x3005 (`LEA R0, #1`,
`TRAP PUTS`, `TRAP HALT`, 'H', 'I', 0), zero elsewhere. -/
def scenario3_memory : Nat → Nat :=
  store (store (store (store (store (store (fun _ => 0)
    0x3000 0xE001) 0x3001 0xF022) 0x3002 0xF025) 0x3003 0x0048) 0x3004 0x0049) 0x3005 0x0000

/-- A program that reaches KBSR from reset: `LD R1, +1` (0x2201) and `JMP R1`
(0xC040) at 0x3000, the address 0xFE00 at 0x3002, and the word `w` in the cell
0xFE00 itself. -/
def kbsr_jump_memory (w : Nat) : Nat → Nat :=
  store (store (store (store (fun _ => 0) 0x3000 0x2201) 0x3001 0xC040) 0x3002 0xFE00) 0xFE00 w

/-- A state for the JSR/RET scenario: `JSR +2` (0x4802) at 0x3000, the routine
`NOT R0,R0` (0x903F), `JMP R7` (0xC1C0) at 0x3003, R0 = 0x00FF, PC = 0x3000. -/
def jsr_ret_state : VM :=
  state_of (store (store (store (fun _ => 0) 0x3000 0x4802) 0x3003 0x903F) 0x3004 0xC1C0)
    (store (store (store (fun _ => 0) R_COND FL_ZRO) R_R0 0x00FF) R_PC 0x3000)

/-- A state for the NOT/NOT scenario: `NOT R1,R2` (0x92BF), `NOT R1,R1` (0x927F)
at 0x3000, R2 = 0x8001, COND = Z. -/
def not_not_state : VM :=
  state_of (store (store (fun _ => 0) 0x3000 0x92BF) 0x3001 0x927F)
    (store (store (store (fun _ => 0) R_COND FL_ZRO) 2 0x8001) R_PC 0x3000)

/-- A state for the PUTS scenario: `TRAP PUTS` (0xF022) at 0x3000, the words
'H', 'I', 0 from 0x4000 on, R0 = 0x4000, PC = 0x3000. -/
def puts_state : VM :=
  state_of (store (store (store (fun _ => 0) 0x3000 0xF022) 0x4000 0x48) 0x4001 0x49)
    (store (store (store (fun _ => 0) R_COND FL_ZRO) R_R0 0x4000) R_PC 0x3000)

/-! ## Arithmetic of the bit operations -/

theorem or_shiftLeft_eq_add (x c K : Nat) (h : x < 2 ^ K) :
    x ||| (c <<< K) = c * 2 ^ K + x := by
  rw [Nat.shiftLeft_eq, Nat.lor_comm, Nat.mul_comm, Nat.mul_add_lt_is_or h]

theorem shiftRight_and_one (x n : Nat) : (x >>> n) &&& 1 = x / 2 ^ n % 2 := by
  rw [Nat.and_one_is_mod, Nat.shiftRight_eq_div_pow]

theorem two_pow_le_65536 (K : Nat) (hK : K ≤ 16) : 2 ^ K ≤ 65536 := by
  have h : 2 ^ K ≤ 2 ^ 16 := Nat.pow_le_pow_right (by norm_num) hK
  simpa using h

theorem or_mask_mod (x K : Nat) (hK : K ≤ 16) (h : x < 2 ^ K) :
    (x ||| (0xFFFF <<< K)) % 65536 = x + (65536 - 2 ^ K) := by
  rw [or_shiftLeft_eq_add _ _ _ h]
  have hle := two_pow_le_65536 K hK
  have hpos : 0 < 2 ^ K := Nat.pow_pos (by norm_num)
  have e : 65535 * 2 ^ K + x = 65536 * (2 ^ K - 1) + (x + (65536 - 2 ^ K)) := by
    have e1 : 65536 * (2 ^ K - 1) = 65536 * 2 ^ K - 65536 := by
      rw [Nat.mul_sub, Nat.mul_one]
    have e2 : 65536 ≤ 65536 * 2 ^ K := Nat.le_mul_of_pos_right _ hpos
    omega
  rw [e, Nat.mul_add_mod]
  exact Nat.mod_eq_of_lt (by omega)

/-- Closed form of `sign_extend` on a `K`-bit field. -/
theorem sign_extend_eq (x K : Nat) (hK : K ≤ 16) (h : x < 2 ^ K) :
    sign_extend x K = if x / 2 ^ (K - 1) % 2 = 0 then x else x + (65536 - 2 ^ K) := by
  unfold sign_extend
  rw [shiftRight_and_one, or_mask_mod _ _ hK h]
  by_cases h1 : x / 2 ^ (K - 1) % 2 = 0
  · simp [h1]
  · simp [h1]

/-- Closed form of `swap16` on a 16-bit word. -/
theorem swap16_eq (x : Nat) (h : x < 65536) : swap16 x = (x % 256) * 256 + x / 256 := by
  unfold swap16
  have h1 : x >>> 8 < 2 ^ 8 := by rw [Nat.shiftRight_eq_div_pow]; omega
  rw [Nat.lor_comm, or_shiftLeft_eq_add _ _ _ h1, Nat.shiftRight_eq_div_pow]
  omega

theorem testBit_15 (x : Nat) (h : x < 65536) : x.testBit 15 = decide (32768 ≤ x) := by
  rw [Nat.testBit_to_div_mod]
  have : x / 2 ^ 15 % 2 = 1 ↔ 32768 ≤ x := by
    norm_num
    omega
  simp only [this]

theorem shiftRight_15_ne_zero (x : Nat) : x >>> 15 ≠ 0 ↔ 32768 ≤ x := by
  rw [Nat.shiftRight_eq_div_pow]
  norm_num
  omega

/-! ## Frame lemmas of the state operations -/

@[simp] theorem store_same (a : Nat → Nat) (i v : Nat) : store a i v i = v := by
  simp [store]

@[simp] theorem store_other (a : Nat → Nat) (i j v : Nat) (h : j ≠ i) : store a i v j = a j := by
  simp [store, h]

theorem and_seven_le (x : Nat) : x &&& 7 ≤ 7 := Nat.and_le_right

theorem update_flags_cond (r : Nat) (s : VM) :
    (update_flags r s).reg R_COND =
      if s.reg r = 0 then FL_ZRO else if s.reg r >>> 15 ≠ 0 then FL_NEG else FL_POS := by
  unfold update_flags
  split_ifs <;> simp

theorem update_flags_reg (r i : Nat) (s : VM) (h : i ≠ R_COND) :
    (update_flags r s).reg i = s.reg i := by
  unfold update_flags
  split_ifs <;> simp [h]

theorem update_flags_frame (r : Nat) (s : VM) :
    (update_flags r s).memory = s.memory ∧ (update_flags r s).keys = s.keys ∧
    (update_flags r s).stdin = s.stdin ∧ (update_flags r s).stdout = s.stdout ∧
    (update_flags r s).running = s.running := by
  unfold update_flags
  split_ifs <;> simp

theorem update_flags_one_hot (r : Nat) (s : VM) : one_hot ((update_flags r s).reg R_COND) := by
  rw [update_flags_cond]
  unfold one_hot
  split_ifs <;> simp

theorem check_key_frame (s : VM) :
    (check_key s).2.memory = s.memory ∧ (check_key s).2.reg = s.reg ∧
    (check_key s).2.stdin = s.stdin ∧ (check_key s).2.stdout = s.stdout ∧
    (check_key s).2.running = s.running := by
  unfold check_key
  split <;> simp

theorem getchar_frame (s : VM) :
    (getchar s).2.memory = s.memory ∧ (getchar s).2.reg = s.reg ∧
    (getchar s).2.keys = s.keys ∧ (getchar s).2.stdout = s.stdout ∧
    (getchar s).2.running = s.running := by
  unfold getchar
  split <;> simp

theorem mem_read_frame (a : Nat) (s : VM) :
    (mem_read a s).2.reg = s.reg ∧ (mem_read a s).2.stdout = s.stdout ∧
    (mem_read a s).2.running = s.running := by
  unfold mem_read
  by_cases ha : a = MR_KBSR
  · by_cases hk : (check_key s).1 = 0 <;> simp [ha, hk, (check_key_frame s).2, getchar_frame]
  · simp [ha]

theorem mem_read_reg (a : Nat) (s : VM) : (mem_read a s).2.reg = s.reg :=
  (mem_read_frame a s).1


/-! ## COND across the instructions -/

theorem op_BR_cond (instr : Nat) (s : VM) : (op_BR instr s).reg R_COND = s.reg R_COND := by
  unfold op_BR
  simp only []
  split_ifs <;> simp [R_COND, R_PC]

theorem op_ST_cond (instr : Nat) (s : VM) : (op_ST instr s).reg R_COND = s.reg R_COND := by
  simp [op_ST, mem_write]

theorem op_JSR_cond (instr : Nat) (s : VM) : (op_JSR instr s).reg R_COND = s.reg R_COND := by
  unfold op_JSR
  simp only []
  split_ifs <;> simp [R_COND, R_PC, R_R7]

theorem op_STR_cond (instr : Nat) (s : VM) : (op_STR instr s).reg R_COND = s.reg R_COND := by
  simp [op_STR, mem_write]

theorem op_STI_cond (instr : Nat) (s : VM) : (op_STI instr s).reg R_COND = s.reg R_COND := by
  simp [op_STI, mem_write, mem_read_reg]

theorem op_JMP_cond (instr : Nat) (s : VM) : (op_JMP instr s).reg R_COND = s.reg R_COND := by
  simp [op_JMP, R_COND, R_PC]

theorem op_ADD_one_hot (instr : Nat) (s : VM) : one_hot ((op_ADD instr s).reg R_COND) := by
  unfold op_ADD
  simp only []
  split_ifs <;> exact update_flags_one_hot _ _

theorem op_AND_one_hot (instr : Nat) (s : VM) : one_hot ((op_AND instr s).reg R_COND) := by
  unfold op_AND
  simp only []
  split_ifs <;> exact update_flags_one_hot _ _

theorem op_TRAP_one_hot (instr : Nat) (s s' : VM) (h : one_hot (s.reg R_COND))
    (he : op_TRAP instr s = some s') : one_hot (s'.reg R_COND) := by
  unfold op_TRAP at he
  simp only [] at he
  split_ifs at he
  · cases he; exact update_flags_one_hot _ _
  · cases he; simpa [R_COND, R_R7] using h
  · rw [Option.map_eq_some'] at he
    obtain ⟨out, -, rfl⟩ := he
    simpa [R_COND, R_R7] using h
  · cases he; exact update_flags_one_hot _ _
  · rw [Option.map_eq_some'] at he
    obtain ⟨out, -, rfl⟩ := he
    simpa [R_COND, R_R7] using h
  · cases he; simpa [R_COND, R_R7] using h
  · cases he; simpa [R_COND, R_R7] using h

theorem exec_of_op (instr : Nat) (s : VM) :
    (instr >>> 12 = 0 → exec instr s = some (op_BR instr s)) ∧
    (instr >>> 12 = 1 → exec instr s = some (op_ADD instr s)) ∧
    (instr >>> 12 = 2 → exec instr s = some (op_LD instr s)) ∧
    (instr >>> 12 = 3 → exec instr s = some (op_ST instr s)) ∧
    (instr >>> 12 = 4 → exec instr s = some (op_JSR instr s)) ∧
    (instr >>> 12 = 5 → exec instr s = some (op_AND instr s)) ∧
    (instr >>> 12 = 6 → exec instr s = some (op_LDR instr s)) ∧
    (instr >>> 12 = 7 → exec instr s = some (op_STR instr s)) ∧
    (instr >>> 12 = 8 → exec instr s = some s) ∧
    (instr >>> 12 = 9 → exec instr s = some (op_NOT instr s)) ∧
    (instr >>> 12 = 10 → exec instr s = some (op_LDI instr s)) ∧
    (instr >>> 12 = 11 → exec instr s = some (op_STI instr s)) ∧
    (instr >>> 12 = 12 → exec instr s = some (op_JMP instr s)) ∧
    (instr >>> 12 = 13 → exec instr s = some s) ∧
    (instr >>> 12 = 14 → exec instr s = some (op_LEA instr s)) ∧
    (instr >>> 12 = 15 → exec instr s = op_TRAP instr s) ∧
    (16 ≤ instr >>> 12 → exec instr s = none) := by
  unfold exec
  generalize instr >>> 12 = op
  refine ⟨?_, ?_, ?_, ?_, ?_, ?_, ?_, ?_, ?_, ?_, ?_, ?_, ?_, ?_, ?_, ?_, ?_⟩
  all_goals intro h
  all_goals try (subst h; rfl)
  have : ∀ k, k < 16 → op ≠ k := fun k hk => by omega
  simp only [OP_BR, OP_ADD, OP_LD, OP_ST, OP_JSR, OP_AND, OP_LDR, OP_STR, OP_RTI, OP_NOT,
      OP_LDI, OP_STI, OP_JMP, OP_RES, OP_LEA, OP_TRAP]
  rw [if_neg (this _ (by norm_num)), if_neg (this _ (by norm_num)), if_neg (this _ (by norm_num)), if_neg (this _ (by norm_num)),
    if_neg (this _ (by norm_num)), if_neg (this _ (by norm_num)), if_neg (this _ (by norm_num)), if_neg (this _ (by norm_num)),
    if_neg (this _ (by norm_num)), if_neg (this _ (by norm_num)), if_neg (this _ (by norm_num)), if_neg (this _ (by norm_num)),
    if_neg (this _ (by norm_num)), if_neg (this _ (by norm_num)), if_neg (this _ (by norm_num)), if_neg (this _ (by norm_num))]

theorem exec_cases (instr : Nat) :
    instr >>> 12 = 0 ∨ instr >>> 12 = 1 ∨ instr >>> 12 = 2 ∨ instr >>> 12 = 3 ∨
    instr >>> 12 = 4 ∨ instr >>> 12 = 5 ∨ instr >>> 12 = 6 ∨ instr >>> 12 = 7 ∨
    instr >>> 12 = 8 ∨ instr >>> 12 = 9 ∨ instr >>> 12 = 10 ∨ instr >>> 12 = 11 ∨
    instr >>> 12 = 12 ∨ instr >>> 12 = 13 ∨ instr >>> 12 = 14 ∨ instr >>> 12 = 15 ∨
    16 ≤ instr >>> 12 := by
  omega

theorem exec_one_hot (instr : Nat) (s s' : VM) (h : one_hot (s.reg R_COND))
    (he : exec instr s = some s') : one_hot (s'.reg R_COND) := by
  obtain ⟨e0, e1, e2, e3, e4, e5, e6, e7, e8, e9, e10, e11, e12, e13, e14, e15, e16⟩ :=
    exec_of_op instr s
  rcases exec_cases instr with c | c | c | c | c | c | c | c | c | c | c | c | c | c | c | c | c
  · rw [e0 c] at he; cases he; rw [op_BR_cond]; exact h
  · rw [e1 c] at he; cases he; exact op_ADD_one_hot _ _
  · rw [e2 c] at he; cases he; exact update_flags_one_hot _ _
  · rw [e3 c] at he; cases he; rw [op_ST_cond]; exact h
  · rw [e4 c] at he; cases he; rw [op_JSR_cond]; exact h
  · rw [e5 c] at he; cases he; exact op_AND_one_hot _ _
  · rw [e6 c] at he; cases he; exact update_flags_one_hot _ _
  · rw [e7 c] at he; cases he; rw [op_STR_cond]; exact h
  · rw [e8 c] at he; cases he; exact h
  · rw [e9 c] at he; cases he; exact update_flags_one_hot _ _
  · rw [e10 c] at he; cases he; exact update_flags_one_hot _ _
  · rw [e11 c] at he; cases he; rw [op_STI_cond]; exact h
  · rw [e12 c] at he; cases he; rw [op_JMP_cond]; exact h
  · rw [e13 c] at he; cases he; exact h
  · rw [e14 c] at he; cases he; exact update_flags_one_hot _ _
  · rw [e15 c] at he; exact op_TRAP_one_hot instr s s' h he
  · rw [e16 c] at he; cases he

theorem fetch_reg (s : VM) :
    (fetch s).2.reg = store s.reg R_PC ((s.reg R_PC + 1) % 65536) := by
  unfold fetch
  rw [mem_read_reg]

theorem fetch_cond (s : VM) : (fetch s).2.reg R_COND = s.reg R_COND := by
  rw [fetch_reg]
  simp [R_COND, R_PC]

theorem step_one_hot (s s' : VM) (h : one_hot (s.reg R_COND)) (he : step s = some s') :
    one_hot (s'.reg R_COND) := by
  unfold step at he
  exact exec_one_hot _ _ _ (by rw [fetch_cond]; exact h) he

theorem iterate_one_hot (n : Nat) : ∀ (s s' : VM), one_hot (s.reg R_COND) →
    iterate n s = some s' → one_hot (s'.reg R_COND) := by
  induction n with
  | zero =>
    intro s s' h he
    simp [iterate] at he
    rw [← he]; exact h
  | succ n ih =>
    intro s s' h he
    simp only [iterate] at he
    split_ifs at he
    · rw [Option.bind_eq_some] at he
      obtain ⟨s1, h1, h2⟩ := he
      exact ih s1 s' (step_one_hot s s1 h h1) h2
    · cases he; exact h

/-! ## Steps that always have a result -/

theorem mem_read_lt (a : Nat) (s : VM) (hm : ∀ i, s.memory i < 65536) :
    (mem_read a s).1 < 65536 := by
  unfold mem_read
  by_cases ha : a = MR_KBSR
  · by_cases hk : (check_key s).1 = 0
    · simp [ha, hk]
    · simp [ha, hk, MR_KBSR, MR_KBDR, getchar_frame]
  · simpa [ha] using hm a

theorem fetch_lt (s : VM) (hm : ∀ i, s.memory i < 65536) : (fetch s).1 < 65536 := by
  unfold fetch
  exact mem_read_lt _ _ hm

theorem op_TRAP_isSome (instr : Nat) (s : VM)
    (hs : ¬ (instr &&& 0xFF = TRAP_PUTS ∨ instr &&& 0xFF = TRAP_PUTSP)) :
    ∃ s', op_TRAP instr s = some s' := by
  unfold op_TRAP
  simp only []
  split_ifs with g0 g1 g2 g3 g4 g5
  all_goals first
    | exact ⟨_, rfl⟩
    | exact absurd (Or.inl g2) hs
    | exact absurd (Or.inr g4) hs

theorem exec_isSome (instr : Nat) (s : VM) (hi : instr < 65536) (hs : ¬ is_string_trap instr) :
    ∃ s', exec instr s = some s' := by
  have hop : instr >>> 12 < 16 := by
    rw [Nat.shiftRight_eq_div_pow]; norm_num; omega
  obtain ⟨e0, e1, e2, e3, e4, e5, e6, e7, e8, e9, e10, e11, e12, e13, e14, e15, -⟩ :=
    exec_of_op instr s
  rcases exec_cases instr with c | c | c | c | c | c | c | c | c | c | c | c | c | c | c | c | c
  · exact ⟨_, e0 c⟩
  · exact ⟨_, e1 c⟩
  · exact ⟨_, e2 c⟩
  · exact ⟨_, e3 c⟩
  · exact ⟨_, e4 c⟩
  · exact ⟨_, e5 c⟩
  · exact ⟨_, e6 c⟩
  · exact ⟨_, e7 c⟩
  · exact ⟨_, e8 c⟩
  · exact ⟨_, e9 c⟩
  · exact ⟨_, e10 c⟩
  · exact ⟨_, e11 c⟩
  · exact ⟨_, e12 c⟩
  · exact ⟨_, e13 c⟩
  · exact ⟨_, e14 c⟩
  · rw [e15 c]
    exact op_TRAP_isSome instr s (fun h => hs ⟨c, h⟩)
  · omega

/-! ## The image loader -/

theorem fread_count (n : Nat) : ∀ (memory : Nat → Nat) (p : Nat) (body : List Nat),
    (fread memory p n body).1 = min (body.length / 2) n := by
  induction n with
  | zero => intro memory p body; simp [fread]
  | succ n ih =>
    intro memory p body
    match body with
    | [] => simp [fread]
    | [lo] => simp [fread]
    | lo :: hi :: rest =>
      simp only [fread, ih, List.length_cons]
      omega

theorem fread_frame (n : Nat) : ∀ (memory : Nat → Nat) (p : Nat) (body : List Nat) (a : Nat),
    (a < p ∨ p + (fread memory p n body).1 < a ∨
      (a = p + (fread memory p n body).1 ∧
        (body.length % 2 = 0 ∨ (fread memory p n body).1 = n))) →
    (fread memory p n body).2 a = memory a := by
  induction n with
  | zero => intro memory p body a _; simp [fread]
  | succ n ih =>
    intro memory p body a h
    match body with
    | [] => simp [fread]
    | [lo] =>
      simp only [fread, List.length_singleton] at h ⊢
      have hne : a ≠ p := by omega
      simp [hne]
    | lo :: hi :: rest =>
      simp only [fread, List.length_cons] at h ⊢
      have hne : a ≠ p := by omega
      rw [ih (store memory p (lo + 256 * hi)) (p + 1) rest a (by omega)]
      simp [hne]

theorem fread_stored (n : Nat) : ∀ (memory : Nat → Nat) (p : Nat) (body : List Nat) (i : Nat),
    i < (fread memory p n body).1 →
    (fread memory p n body).2 (p + i) = body.getD (2 * i) 0 + 256 * body.getD (2 * i + 1) 0 := by
  induction n with
  | zero => intro memory p body i h; simp [fread] at h
  | succ n ih =>
    intro memory p body i h
    match body with
    | [] => simp [fread] at h
    | [lo] => simp [fread] at h
    | lo :: hi :: rest =>
      simp only [fread] at h ⊢
      cases i with
      | zero =>
        rw [fread_frame n _ (p + 1) rest (p + 0) (Or.inl (by omega))]
        simp
      | succ j =>
        have e : p + (j + 1) = (p + 1) + j := by omega
        rw [e, ih _ (p + 1) rest j (by omega)]
        have e1 : 2 * (j + 1) = (2 * j + 1) + 1 := by omega
        have e2 : 2 * (j + 1) + 1 = (2 * j + 1 + 1) + 1 := by omega
        rw [e2, e1]
        simp only [List.getD_cons_succ]

theorem swap_pass_out (n : Nat) : ∀ (memory : Nat → Nat) (p a : Nat),
    (a < p ∨ p + n ≤ a) → swap_pass memory p n a = memory a := by
  induction n with
  | zero => intro memory p a _; rfl
  | succ n ih =>
    intro memory p a h
    simp only [swap_pass]
    rw [ih _ (p + 1) a (by omega)]
    have hne : a ≠ p := by omega
    simp [hne]

theorem swap_pass_in (n : Nat) : ∀ (memory : Nat → Nat) (p i : Nat),
    i < n → swap_pass memory p n (p + i) = swap16 (memory (p + i)) := by
  induction n with
  | zero => intro memory p i h; omega
  | succ n ih =>
    intro memory p i h
    simp only [swap_pass]
    cases i with
    | zero =>
      rw [swap_pass_out n _ (p + 1) (p + 0) (Or.inl (by omega))]
      simp
    | succ j =>
      have e : p + (j + 1) = (p + 1) + j := by omega
      rw [e, ih _ (p + 1) j (by omega)]
      have hne : p + 1 + j ≠ p := by omega
      simp [hne]

theorem swap16_bytes (hi lo : Nat) (hh : hi < 256) (hl : lo < 256) :
    swap16 (lo + 256 * hi) = lo * 256 + hi := by
  rw [swap16_eq _ (by omega)]
  omega

/-- The number of body words `read_image_file` stores: none for origin 0 (where
`max_read` is 0), otherwise the whole words of the body up to `65536 - origin`. -/
theorem words_stored_eq (b0 b1 : Nat) (body : List Nat) (memory : Nat → Nat)
    (h0 : b0 < 256) (h1 : b1 < 256) :
    words_stored (b0 :: b1 :: body) memory =
      some (if b0 * 256 + b1 = 0 then 0 else min (body.length / 2) (65536 - (b0 * 256 + b1))) := by
  have ho : swap16 (b0 + 256 * b1) = b0 * 256 + b1 := swap16_bytes b1 b0 h1 h0
  simp only [words_stored, ho, fread_count, MEMORY_MAX]
  congr 1
  split_ifs with hz
  · rw [hz]; simp
  · rw [Nat.mod_eq_of_lt (by omega)]

/-- Shape of the amended C6 on a stream split into origin bytes and body. -/
theorem read_image_file_spec (b0 b1 : Nat) (body : List Nat) (memory : Nat → Nat)
    (h0 : b0 < 256) (h1 : b1 < 256) (hb : ∀ x ∈ body, x < 256) :
    ∃ m' n, read_image_file (b0 :: b1 :: body) memory = some m' ∧
      words_stored (b0 :: b1 :: body) memory = some n ∧
      2 + 2 * n ≤ (b0 :: b1 :: body).length ∧
      (∀ i, i < n → m' (b0 * 256 + b1 + i) =
        body.getD (2 * i) 0 * 256 + body.getD (2 * i + 1) 0) ∧
      (∀ a, (a < b0 * 256 + b1 ∨ b0 * 256 + b1 + n < a) → m' a = memory a) ∧
      ((body.length % 2 = 0 ∨ n = (MEMORY_MAX - (b0 * 256 + b1)) % 65536) →
        m' (b0 * 256 + b1 + n) = memory (b0 * 256 + b1 + n)) := by
  have ho : swap16 (b0 + 256 * b1) = b0 * 256 + b1 := swap16_bytes b1 b0 h1 h0
  have hget : ∀ k, body.getD k 0 < 256 := by
    intro k
    rw [List.getD_eq_getElem?_getD]
    cases hk : body[k]? with
    | none => simp
    | some v =>
      have hv := List.getElem?_mem hk
      simpa using hb v hv
  refine ⟨_, _, rfl, rfl, ?_, ?_, ?_, ?_⟩
  · simp only [ho, fread_count, List.length_cons]
    omega
  · intro i hi
    simp only [ho] at hi ⊢
    rw [swap_pass_in _ _ _ _ hi, fread_stored _ _ _ _ _ hi]
    exact swap16_bytes _ _ (hget _) (hget _)
  · intro a ha
    simp only [ho] at ha ⊢
    rw [swap_pass_out _ _ _ _ (by omega), fread_frame _ _ _ _ _ (by omega)]
  · intro h
    simp only [ho] at h ⊢
    rw [swap_pass_out _ _ _ _ (by omega), fread_frame _ _ _ _ _ (Or.inr (Or.inr ⟨rfl, h⟩))]

/-! ## Instruction fields and single instructions -/

theorem and_1 (x : Nat) : x &&& 1 = x % 2 := Nat.and_pow_two_sub_one_eq_mod x 1
theorem and_7 (x : Nat) : x &&& 7 = x % 8 := Nat.and_pow_two_sub_one_eq_mod x 3
theorem and_1F (x : Nat) : x &&& 0x1F = x % 32 := Nat.and_pow_two_sub_one_eq_mod x 5
theorem and_3F (x : Nat) : x &&& 0x3F = x % 64 := Nat.and_pow_two_sub_one_eq_mod x 6
theorem and_FF (x : Nat) : x &&& 0xFF = x % 256 := Nat.and_pow_two_sub_one_eq_mod x 8
theorem and_1FF (x : Nat) : x &&& 0x1FF = x % 512 := Nat.and_pow_two_sub_one_eq_mod x 9
theorem and_7FF (x : Nat) : x &&& 0x7FF = x % 2048 := Nat.and_pow_two_sub_one_eq_mod x 11

theorem shr_5 (x : Nat) : x >>> 5 = x / 32 := Nat.shiftRight_eq_div_pow x 5
theorem shr_6 (x : Nat) : x >>> 6 = x / 64 := Nat.shiftRight_eq_div_pow x 6
theorem shr_9 (x : Nat) : x >>> 9 = x / 512 := Nat.shiftRight_eq_div_pow x 9
theorem shr_11 (x : Nat) : x >>> 11 = x / 2048 := Nat.shiftRight_eq_div_pow x 11
theorem shr_12 (x : Nat) : x >>> 12 = x / 4096 := Nat.shiftRight_eq_div_pow x 12

/-- On a 16-bit word `update_flags` leaves the flag the specification names. -/
theorem update_flags_flag_of (r : Nat) (s : VM) (hw : s.reg r < 65536) :
    (update_flags r s).reg R_COND = flag_of (s.reg r) := by
  rw [update_flags_cond, flag_of, testBit_15 _ hw]
  by_cases h0 : s.reg r = 0
  · simp [h0]
  · by_cases h1 : 32768 ≤ s.reg r
    · simp [h0, h1, shiftRight_15_ne_zero]
    · have h2 : ¬ (s.reg r >>> 15 ≠ 0) := by rw [shiftRight_15_ne_zero]; exact h1
      simp only [h0, h1, h2, if_false, decide_False]
      simp

theorem fetch_plain (s : VM) (h : s.reg R_PC ≠ MR_KBSR) :
    fetch s = (s.memory (s.reg R_PC),
      { s with reg := store s.reg R_PC ((s.reg R_PC + 1) % 65536) }) := by
  unfold fetch mem_read
  rw [if_neg h]

theorem mem_read_plain (a : Nat) (s : VM) (h : a ≠ MR_KBSR) :
    mem_read a s = (s.memory a, s) := by
  unfold mem_read
  rw [if_neg h]

theorem sign_extend_5 (x : Nat) (h : x < 32) :
    sign_extend x 5 = if x < 16 then x else x + 65504 := by
  rw [sign_extend_eq x 5 (by norm_num) (by norm_num; exact h)]
  norm_num
  split_ifs <;> omega

/-- The effect of `case OP_ADD` on the destination register and on COND, with
the fields written as bit ranges of the instruction word. -/
theorem op_ADD_spec (instr : Nat) (s : VM) :
    (op_ADD instr s).reg (instr / 512 % 8) =
      (if instr / 32 % 2 = 1 then
        (s.reg (instr / 64 % 8) + (if instr % 32 < 16 then instr % 32 else instr % 32 + 65504))
          % 65536
       else (s.reg (instr / 64 % 8) + s.reg (instr % 8)) % 65536) ∧
    (op_ADD instr s).reg R_COND = flag_of ((op_ADD instr s).reg (instr / 512 % 8)) := by
  have hdr : instr / 512 % 8 ≠ R_COND := by unfold R_COND; omega
  unfold op_ADD
  simp only [and_1, and_7, and_1F, shr_5, shr_6, shr_9]
  rw [sign_extend_5 _ (Nat.mod_lt _ (by norm_num))]
  by_cases hb : instr / 32 % 2 = 1
  · have hb' : instr / 32 % 2 ≠ 0 := by omega
    rw [if_pos hb', if_pos hb, update_flags_reg _ _ _ hdr,
      update_flags_flag_of _ _ (by simpa using Nat.mod_lt _ (by norm_num))]
    simp
  · have hb' : ¬ (instr / 32 % 2 ≠ 0) := by omega
    rw [if_neg hb', if_neg hb, update_flags_reg _ _ _ hdr,
      update_flags_flag_of _ _ (by simpa using Nat.mod_lt _ (by norm_num))]
    simp

theorem fetch_reg_general (s : VM) (r : Nat) (h : r ≠ R_PC) : (fetch s).2.reg r = s.reg r := by
  rw [fetch_reg, store_other _ _ _ _ h]

theorem step_ADD (s : VM) (hop : (fetch s).1 / 4096 = 1) :
    step s = some (op_ADD (fetch s).1 (fetch s).2) := by
  unfold step
  exact (exec_of_op _ _).2.1 (by rw [shr_12]; exact hop)

theorem step_LD (s : VM) (hop : (fetch s).1 / 4096 = 2) :
    step s = some (op_LD (fetch s).1 (fetch s).2) := by
  unfold step
  exact (exec_of_op _ _).2.2.1 (by rw [shr_12]; exact hop)

/-- The register loaded by `case OP_LD` when the address read is not KBSR. -/
theorem op_LD_plain (instr : Nat) (s : VM)
    (ha : (s.reg R_PC + sign_extend (instr % 512) 9) % 65536 ≠ MR_KBSR) :
    (op_LD instr s).reg (instr / 512 % 8) =
      s.memory ((s.reg R_PC + sign_extend (instr % 512) 9) % 65536) := by
  have hdr : instr / 512 % 8 ≠ R_COND := by unfold R_COND; omega
  unfold op_LD
  simp only [and_7, and_1FF, shr_9]
  rw [update_flags_reg _ _ _ hdr, mem_read_plain _ _ ha]
  simp

/-! ## Running the loop -/

theorem run_halted (n : Nat) (s : VM) (h : s.running = false) : run n s = some s := by
  cases n <;> simp [run, h]

theorem run_step (n : Nat) (s s1 : VM) (hr : s.running = true) (hs : step s = some s1) :
    run (n + 1) s = run n s1 := by
  simp [run, hr, hs]

theorem puts_loop_more (memory : Nat → Nat) (room a : Nat) (out : List Nat)
    (h : memory a ≠ 0) :
    puts_loop memory (room + 1) a out = puts_loop memory room (a + 1) (out ++ [memory a % 256]) := by
  simp [puts_loop, h]

theorem puts_loop_stop (memory : Nat → Nat) (room a : Nat) (out : List Nat)
    (h : memory a = 0) :
    puts_loop memory (room + 1) a out = some out := by
  simp [puts_loop, h]

theorem step_plain (s : VM) (h : s.reg R_PC ≠ MR_KBSR) :
    step s = exec (s.memory (s.reg R_PC))
      { s with reg := store s.reg R_PC ((s.reg R_PC + 1) % 65536) } := by
  unfold step
  rw [fetch_plain s h]

theorem op_LEA_spec (instr : Nat) (s : VM) :
    (op_LEA instr s).reg (instr / 512 % 8) =
      (s.reg R_PC + sign_extend (instr % 512) 9) % 65536 ∧
    (∀ r, r ≠ instr / 512 % 8 → r ≠ R_COND → (op_LEA instr s).reg r = s.reg r) ∧
    (op_LEA instr s).memory = s.memory ∧ (op_LEA instr s).keys = s.keys ∧
    (op_LEA instr s).stdin = s.stdin ∧ (op_LEA instr s).stdout = s.stdout ∧
    (op_LEA instr s).running = s.running := by
  have hdr : instr / 512 % 8 ≠ R_COND := by unfold R_COND; omega
  unfold op_LEA
  simp only [and_7, and_1FF, shr_9]
  refine ⟨?_, ?_, update_flags_frame _ _⟩
  · rw [update_flags_reg _ _ _ hdr]
    simp
  · intro r h1 h2
    rw [update_flags_reg _ _ _ h2]
    simp [h1]

theorem op_TRAP_PUTS (instr : Nat) (s : VM) (h : instr % 256 = 0x22) :
    op_TRAP instr s =
      (puts_loop s.memory (MEMORY_MAX - s.reg R_R0) (s.reg R_R0) s.stdout).map
        (fun out => { s with reg := store s.reg R_R7 (s.reg R_PC), stdout := out }) := by
  unfold op_TRAP
  simp [and_FF, h, TRAP_GETC, TRAP_OUT, TRAP_PUTS, R_R0, R_R7, store]

theorem op_TRAP_HALT (instr : Nat) (s : VM) (h : instr % 256 = 0x25) :
    op_TRAP instr s = some { s with reg := store s.reg R_R7 (s.reg R_PC),
                                    stdout := s.stdout ++ halt_text, running := false } := by
  unfold op_TRAP
  simp [and_FF, h, TRAP_GETC, TRAP_OUT, TRAP_PUTS, TRAP_IN, TRAP_PUTSP, TRAP_HALT]

/-- The run of scenario 3 with the first word `LEA R0, #k`: the string printed
starts at `0x3001 + k`. -/
theorem scenario3_run (memory : Nat → Nat) (keys : List Bool) (stdin : List Nat)
    (w0 a : Nat) (text : List Nat)
    (h0 : memory 0x3000 = w0) (hw : w0 / 4096 = 14) (hdr : w0 / 512 % 8 = 0)
    (ha : (0x3001 + sign_extend (w0 % 512) 9) % 65536 = a)
    (h1 : memory 0x3001 = 0xF022) (h2 : memory 0x3002 = 0xF025)
    (hp : puts_loop memory (MEMORY_MAX - a) a [] = some text) (n : Nat) :
    ∃ s', run (n + 3) (reset memory keys stdin) = some s' ∧
      s'.stdout = text ++ halt_text ∧ s'.running = false := by
  -- first pass: LEA
  have e1 : step (reset memory keys stdin) = some (op_LEA w0
      { reset memory keys stdin with reg := store (reset memory keys stdin).reg R_PC 0x3001 }) := by
    rw [step_plain _ (by simp [reset, R_PC, MR_KBSR, PC_START])]
    have : (reset memory keys stdin).memory ((reset memory keys stdin).reg R_PC) = w0 := by
      simpa [reset, R_PC, PC_START] using h0
    rw [this]
    have hpc : ((reset memory keys stdin).reg R_PC + 1) % 65536 = 0x3001 := by
      simp [reset, R_PC, PC_START]
    rw [hpc]
    exact (exec_of_op _ _).2.2.2.2.2.2.2.2.2.2.2.2.2.2.1 (by rw [shr_12]; exact hw)
  generalize hs1 : op_LEA w0
      { reset memory keys stdin with reg := store (reset memory keys stdin).reg R_PC 0x3001 } = s1
    at e1
  obtain ⟨l1, l2, l3, -, -, l6, l7⟩ := op_LEA_spec w0
      { reset memory keys stdin with reg := store (reset memory keys stdin).reg R_PC 0x3001 }
  rw [hs1] at l1 l2 l3 l6 l7
  have r0 : s1.reg R_R0 = a := by
    rw [hdr] at l1
    rw [show R_R0 = 0 from rfl, l1, ← ha]
    simp
  have pc1 : s1.reg R_PC = 0x3001 := by
    rw [l2 R_PC (by rw [hdr]; decide) (by decide)]
    simp
  have m1 : s1.memory = memory := by rw [l3]; rfl
  have o1 : s1.stdout = [] := by rw [l6]; rfl
  have run1 : s1.running = true := by rw [l7]; rfl
  -- second pass: TRAP PUTS
  have e2 : step s1 = some
      { s1 with reg := store (store s1.reg R_PC 0x3002) R_R7 0x3002, stdout := text } := by
    rw [step_plain _ (by rw [pc1]; decide), pc1, m1, h1,
      (exec_of_op _ _).2.2.2.2.2.2.2.2.2.2.2.2.2.2.2.1 (by decide),
      op_TRAP_PUTS _ _ (by decide)]
    simp only [store_same, store_other _ R_PC R_R0 _ (by decide), r0, o1, m1, hp, Option.map_some']
  obtain ⟨s2, hs2⟩ : ∃ s2 : VM, s2 =
      { s1 with reg := store (store s1.reg R_PC 0x3002) R_R7 0x3002, stdout := text } :=
    ⟨_, rfl⟩
  rw [← hs2] at e2
  have pc2 : s2.reg R_PC = 0x3002 := by rw [hs2]; simp [R_PC, R_R7]
  have m2 : s2.memory = memory := by rw [hs2]; exact m1
  have o2 : s2.stdout = text := by rw [hs2]
  have run2 : s2.running = true := by rw [hs2]; exact run1
  -- third pass: TRAP HALT
  have e3 : step s2 = some
      { s2 with reg := store (store s2.reg R_PC 0x3003) R_R7 0x3003,
                stdout := text ++ halt_text, running := false } := by
    rw [step_plain _ (by rw [pc2]; decide), pc2, m2, h2,
      (exec_of_op _ _).2.2.2.2.2.2.2.2.2.2.2.2.2.2.2.1 (by decide),
      op_TRAP_HALT _ _ (by decide)]
    simp only [store_same, o2]
  refine ⟨{ s2 with reg := store (store s2.reg R_PC 0x3003) R_R7 0x3003,
                    stdout := text ++ halt_text, running := false }, ?_, rfl, rfl⟩
  rw [run_step _ _ _ (by rfl) e1, run_step _ _ _ run1 e2, run_step _ _ _ run2 e3]
  exact run_halted _ _ rfl

/-! ## The fetch -/

theorem mem_read_kbsr_value (s : VM) :
    (mem_read MR_KBSR s).1 = 0 ∨ (mem_read MR_KBSR s).1 = 0x8000 := by
  unfold mem_read
  by_cases hk : (check_key s).1 = 0
  · left; simp [hk]
  · right; simp [hk, MR_KBSR, MR_KBDR, getchar_frame]

/-- A word fetched at KBSR is what the keyboard poll left there: 0 or 0x8000. -/
theorem fetch_kbsr_value (s : VM) (h : s.reg R_PC = MR_KBSR) :
    (fetch s).1 = 0 ∨ (fetch s).1 = 0x8000 := by
  unfold fetch
  rw [h]
  exact mem_read_kbsr_value _

/-- An instruction whose opcode is neither 0 (BR) nor 8 (RTI) was not fetched
at KBSR. -/
theorem fetch_pc_ne_kbsr (s : VM) (h0 : (fetch s).1 / 4096 ≠ 0) (h8 : (fetch s).1 / 4096 ≠ 8) :
    s.reg R_PC ≠ MR_KBSR := by
  intro h
  rcases fetch_kbsr_value s h with e | e
  · rw [e] at h0; exact h0 (by decide)
  · rw [e] at h8; exact h8 (by decide)

theorem mem_read_memory_lt (a : Nat) (s : VM) (hm : ∀ i, s.memory i < 65536) :
    ∀ i, (mem_read a s).2.memory i < 65536 := by
  have hu : ∀ v : Int, to_u16 v < 65536 := by
    intro v
    unfold to_u16
    omega
  intro i
  unfold mem_read
  by_cases ha : a = MR_KBSR
  · by_cases hk : (check_key s).1 = 0
    · simp only [ha, hk, if_true, ne_eq, not_true_eq_false, if_false]
      by_cases hi : i = MR_KBSR
      · simp [hi]
      · simpa [hi, (check_key_frame s).1] using hm i
    · simp only [ha, hk, if_true, ne_eq, not_false_eq_true]
      by_cases hi : i = MR_KBDR
      · simpa [hi] using hu _
      · by_cases hi2 : i = MR_KBSR
        · simp [hi2, getchar_frame, MR_KBSR, MR_KBDR]
        · simpa [hi, hi2, getchar_frame, (check_key_frame s).1] using hm i
  · simpa [ha] using hm i

theorem fetch_memory_lt (s : VM) (hm : ∀ i, s.memory i < 65536) :
    ∀ i, (fetch s).2.memory i < 65536 := by
  unfold fetch
  exact mem_read_memory_lt _ _ hm

theorem fetch_frame (s : VM) :
    (fetch s).2.stdout = s.stdout ∧ (fetch s).2.running = s.running := by
  unfold fetch
  exact ⟨(mem_read_frame _ _).2.1, (mem_read_frame _ _).2.2⟩

theorem fetch_reg_pc (s : VM) : (fetch s).2.reg R_PC = (s.reg R_PC + 1) % 65536 := by
  rw [fetch_reg, store_same]

theorem fetch_reg_lt (s : VM) (hr : ∀ r, s.reg r < 65536) : ∀ r, (fetch s).2.reg r < 65536 := by
  intro r
  rw [fetch_reg]
  by_cases h : r = R_PC
  · rw [h, store_same]; omega
  · rw [store_other _ _ _ _ h]; exact hr r

/-! ## Complement, jumps and links -/

/-- On a 16-bit word, `x ^ 0xFFFF` cut to 16 bits is the complement `65535 - x`. -/
theorem xor_FFFF (x : Nat) (h : x < 65536) : (x ^^^ 0xFFFF) % 65536 = 65535 - x := by
  have e : x ^^^ 0xFFFF = 65535 - x := by
    apply Nat.eq_of_testBit_eq
    intro i
    have h1 : Nat.testBit (65535 - x) i = (decide (i < 16) && !Nat.testBit x i) := by
      have := Nat.testBit_two_pow_sub_succ (show x < 2 ^ 16 by norm_num; exact h) i
      simpa using this
    have h2 : Nat.testBit 65535 i = decide (i < 16) := by
      have := Nat.testBit_two_pow_sub_one 16 i
      simpa using this
    rw [Nat.testBit_xor, h1, h2]
    by_cases hi : i < 16
    · simp [hi]
    · have hx : Nat.testBit x i = false := by
        apply Nat.testBit_lt_two_pow
        have : 2 ^ 16 ≤ 2 ^ i := Nat.pow_le_pow_right (by norm_num) (by omega)
        norm_num at this
        omega
      simp [hi, hx]
  rw [e]
  exact Nat.mod_eq_of_lt (by omega)

theorem sign_extend_11 (x : Nat) (h : x < 2048) :
    sign_extend x 11 = if x < 1024 then x else x + 63488 := by
  rw [sign_extend_eq x 11 (by norm_num) (by norm_num; exact h)]
  norm_num
  split_ifs <;> omega

theorem sign_extend_9 (x : Nat) (h : x < 512) :
    sign_extend x 9 = if x < 256 then x else x + 65024 := by
  rw [sign_extend_eq x 9 (by norm_num) (by norm_num; exact h)]
  norm_num
  split_ifs <;> omega

/-- The effect of `case OP_JSR`. -/
theorem op_JSR_spec (instr : Nat) (s : VM) :
    (op_JSR instr s).reg R_R7 = s.reg R_PC ∧
    (instr / 2048 % 2 = 1 →
      (op_JSR instr s).reg R_PC = (s.reg R_PC + sign_extend (instr % 2048) 11) % 65536) ∧
    (instr / 2048 % 2 = 0 → instr / 64 % 8 ≠ 7 →
      (op_JSR instr s).reg R_PC = s.reg (instr / 64 % 8)) ∧
    (instr / 2048 % 2 = 0 → instr / 64 % 8 = 7 → (op_JSR instr s).reg R_PC = s.reg R_PC) ∧
    (∀ r, r ≠ R_R7 → r ≠ R_PC → (op_JSR instr s).reg r = s.reg r) ∧
    (op_JSR instr s).memory = s.memory ∧ (op_JSR instr s).keys = s.keys ∧
    (op_JSR instr s).stdin = s.stdin ∧ (op_JSR instr s).stdout = s.stdout ∧
    (op_JSR instr s).running = s.running := by
  unfold op_JSR
  simp only [and_1, and_7, and_7FF, shr_6, shr_11]
  by_cases hb : instr / 2048 % 2 = 1
  · have hb' : instr / 2048 % 2 ≠ 0 := by omega
    rw [if_pos hb']
    refine ⟨by simp [R_R7, R_PC], fun _ => by simp [R_R7, R_PC],
      fun h => by omega, fun h => by omega, ?_, by simp⟩
    intro r h7 hpc
    simp [h7, hpc]
  · have hb' : ¬ (instr / 2048 % 2 ≠ 0) := by omega
    rw [if_neg hb']
    refine ⟨by simp [R_R7, R_PC], fun h => absurd h hb, ?_, ?_, ?_, by simp⟩
    · intro _ h7
      have : instr / 64 % 8 ≠ R_R7 := h7
      simp [this]
    · intro _ h7
      simp [h7, R_R7]
    · intro r h7 hpc
      simp [h7, hpc]

theorem step_JSR (s : VM) (hop : (fetch s).1 / 4096 = 4) :
    step s = some (op_JSR (fetch s).1 (fetch s).2) := by
  unfold step
  exact (exec_of_op _ _).2.2.2.2.1 (by rw [shr_12]; exact hop)

theorem step_NOT (s : VM) (hop : (fetch s).1 / 4096 = 9) :
    step s = some (op_NOT (fetch s).1 (fetch s).2) := by
  unfold step
  exact (exec_of_op _ _).2.2.2.2.2.2.2.2.2.1 (by rw [shr_12]; exact hop)

theorem step_JMP (s : VM) (hop : (fetch s).1 / 4096 = 12) :
    step s = some (op_JMP (fetch s).1 (fetch s).2) := by
  unfold step
  exact (exec_of_op _ _).2.2.2.2.2.2.2.2.2.2.2.2.1 (by rw [shr_12]; exact hop)

/-- The state after a fetch away from KBSR: only PC has moved. -/
theorem fetch_state (s : VM) (h : s.reg R_PC ≠ MR_KBSR) :
    (fetch s).2 = { s with reg := store s.reg R_PC ((s.reg R_PC + 1) % 65536) } := by
  rw [fetch_plain s h]

/-- The effect of `case OP_NOT`. -/
theorem op_NOT_spec (instr : Nat) (s : VM) :
    (op_NOT instr s).reg (instr / 512 % 8) = (s.reg (instr / 64 % 8) ^^^ 0xFFFF) % 65536 ∧
    (op_NOT instr s).reg R_COND = flag_of ((op_NOT instr s).reg (instr / 512 % 8)) ∧
    (∀ r, r ≠ instr / 512 % 8 → r ≠ R_COND → (op_NOT instr s).reg r = s.reg r) ∧
    (op_NOT instr s).memory = s.memory ∧ (op_NOT instr s).keys = s.keys ∧
    (op_NOT instr s).stdin = s.stdin ∧ (op_NOT instr s).stdout = s.stdout ∧
    (op_NOT instr s).running = s.running := by
  have hdr : instr / 512 % 8 ≠ R_COND := by unfold R_COND; omega
  unfold op_NOT
  simp only [and_7, shr_6, shr_9]
  refine ⟨?_, ?_, ?_, update_flags_frame _ _⟩
  · rw [update_flags_reg _ _ _ hdr]
    simp
  · rw [update_flags_reg _ _ _ hdr,
      update_flags_flag_of _ _ (by simpa using Nat.mod_lt _ (by norm_num))]
  · intro r h1 h2
    rw [update_flags_reg _ _ _ h2]
    simp [h1]

/-- The effect of `case OP_JMP`. -/
theorem op_JMP_spec (instr : Nat) (s : VM) :
    (op_JMP instr s).reg R_PC = s.reg (instr / 64 % 8) ∧
    (∀ r, r ≠ R_PC → (op_JMP instr s).reg r = s.reg r) ∧
    (op_JMP instr s).memory = s.memory ∧ (op_JMP instr s).keys = s.keys ∧
    (op_JMP instr s).stdin = s.stdin ∧ (op_JMP instr s).stdout = s.stdout ∧
    (op_JMP instr s).running = s.running := by
  unfold op_JMP
  simp only [and_7, shr_6]
  refine ⟨by simp, ?_, by simp⟩
  intro r h
  simp [h]

/-! ## Fetches at KBSR, BR, RTI, RES and unknown traps -/

theorem mem_read_kbsr_no_key (s : VM) (hk : (check_key s).1 = 0) :
    mem_read MR_KBSR s =
      (0, { (check_key s).2 with memory := store (check_key s).2.memory MR_KBSR 0 }) := by
  unfold mem_read
  simp [hk]

theorem mem_read_kbsr_key (s : VM) (hk : (check_key s).1 ≠ 0) :
    (mem_read MR_KBSR s).1 = 0x8000 := by
  unfold mem_read
  simp [hk, MR_KBSR, MR_KBDR, getchar_frame]

/-- A fetch that delivers a word with opcode 0 leaves input, output, registers
but PC, and every memory cell but KBSR as they were. -/
theorem fetch_op0_frame (s : VM) (h0 : (fetch s).1 / 4096 = 0) :
    (fetch s).2.stdin = s.stdin ∧ (∀ x, x ≠ MR_KBSR → (fetch s).2.memory x = s.memory x) ∧
    (s.reg R_PC ≠ MR_KBSR → (fetch s).2.memory = s.memory ∧ (fetch s).2.keys = s.keys) := by
  by_cases hpc : s.reg R_PC = MR_KBSR
  · have hk : (check_key { s with reg := store s.reg R_PC ((s.reg R_PC + 1) % 65536) }).1 = 0 := by
      by_contra hk
      have := mem_read_kbsr_key _ hk
      unfold fetch at h0
      rw [hpc] at h0 this
      rw [this] at h0
      exact absurd h0 (by decide)
    have e := mem_read_kbsr_no_key _ hk
    unfold fetch
    rw [hpc] at e ⊢
    rw [e]
    refine ⟨(check_key_frame _).2.2.1, ?_, fun h => absurd rfl h⟩
    intro x hx
    simp [hx, (check_key_frame _).1]
  · rw [fetch_state s hpc]
    exact ⟨rfl, fun _ _ => rfl, fun _ => ⟨rfl, rfl⟩⟩

theorem step_BR (s : VM) (hop : (fetch s).1 / 4096 = 0) :
    step s = some (op_BR (fetch s).1 (fetch s).2) := by
  unfold step
  exact (exec_of_op _ _).1 (by rw [shr_12]; exact hop)

theorem step_AND (s : VM) (hop : (fetch s).1 / 4096 = 5) :
    step s = some (op_AND (fetch s).1 (fetch s).2) := by
  unfold step
  exact (exec_of_op _ _).2.2.2.2.2.1 (by rw [shr_12]; exact hop)

theorem step_RTI (s : VM) (hop : (fetch s).1 / 4096 = 8) : step s = some (fetch s).2 := by
  unfold step
  exact (exec_of_op _ _).2.2.2.2.2.2.2.2.1 (by rw [shr_12]; exact hop)

theorem step_RES (s : VM) (hop : (fetch s).1 / 4096 = 13) : step s = some (fetch s).2 := by
  unfold step
  exact (exec_of_op _ _).2.2.2.2.2.2.2.2.2.2.2.2.2.1 (by rw [shr_12]; exact hop)

theorem step_TRAP (s : VM) (hop : (fetch s).1 / 4096 = 15) :
    step s = op_TRAP (fetch s).1 (fetch s).2 := by
  unfold step
  exact (exec_of_op _ _).2.2.2.2.2.2.2.2.2.2.2.2.2.2.2.1 (by rw [shr_12]; exact hop)

/-- The effect of `case OP_BR`. -/
theorem op_BR_spec (instr : Nat) (s : VM) :
    (instr / 512 % 8 &&& s.reg R_COND ≠ 0 →
      (op_BR instr s).reg R_PC = (s.reg R_PC + sign_extend (instr % 512) 9) % 65536) ∧
    (instr / 512 % 8 &&& s.reg R_COND = 0 → (op_BR instr s).reg R_PC = s.reg R_PC) ∧
    (∀ r, r ≠ R_PC → (op_BR instr s).reg r = s.reg r) ∧
    (op_BR instr s).memory = s.memory ∧ (op_BR instr s).keys = s.keys ∧
    (op_BR instr s).stdin = s.stdin ∧ (op_BR instr s).stdout = s.stdout ∧
    (op_BR instr s).running = s.running := by
  unfold op_BR
  simp only [and_7, and_1FF, shr_9]
  by_cases hb : instr / 512 % 8 &&& s.reg R_COND = 0
  · rw [if_neg (by simpa using hb)]
    exact ⟨fun h => absurd hb h, fun _ => rfl, fun _ _ => rfl, rfl, rfl, rfl, rfl, rfl⟩
  · rw [if_pos hb]
    refine ⟨fun _ => by simp, fun h => absurd h hb, ?_, rfl, rfl, rfl, rfl, rfl⟩
    intro r hr
    simp [hr]

/-- The trap arm for a vector outside 0x20..0x25: only the link is written. -/
theorem op_TRAP_unknown (instr : Nat) (s : VM)
    (h : ¬ (0x20 ≤ instr % 256 ∧ instr % 256 ≤ 0x25)) :
    op_TRAP instr s = some { s with reg := store s.reg R_R7 (s.reg R_PC) } := by
  unfold op_TRAP
  simp only [and_FF, TRAP_GETC, TRAP_OUT, TRAP_PUTS, TRAP_IN, TRAP_PUTSP, TRAP_HALT]
  rw [if_neg (by omega), if_neg (by omega), if_neg (by omega), if_neg (by omega),
    if_neg (by omega), if_neg (by omega)]

/-! ## COND after the flag-updating instructions -/

theorem step_LDR (s : VM) (hop : (fetch s).1 / 4096 = 6) :
    step s = some (op_LDR (fetch s).1 (fetch s).2) := by
  unfold step
  exact (exec_of_op _ _).2.2.2.2.2.2.1 (by rw [shr_12]; exact hop)

theorem step_LDI (s : VM) (hop : (fetch s).1 / 4096 = 10) :
    step s = some (op_LDI (fetch s).1 (fetch s).2) := by
  unfold step
  exact (exec_of_op _ _).2.2.2.2.2.2.2.2.2.2.1 (by rw [shr_12]; exact hop)

theorem step_LEA (s : VM) (hop : (fetch s).1 / 4096 = 14) :
    step s = some (op_LEA (fetch s).1 (fetch s).2) := by
  unfold step
  exact (exec_of_op _ _).2.2.2.2.2.2.2.2.2.2.2.2.2.2.1 (by rw [shr_12]; exact hop)

/-- Writing a 16-bit value to a general register and calling `update_flags` on
it leaves COND the flag of the value, which the register still holds. -/
theorem write_flag (s : VM) (dr v : Nat) (hdr : dr ≠ R_COND) (hv : v < 65536) :
    (update_flags dr { s with reg := store s.reg dr v }).reg R_COND =
      flag_of ((update_flags dr { s with reg := store s.reg dr v }).reg dr) := by
  rw [update_flags_reg _ _ _ hdr, update_flags_flag_of _ _ (by simpa using hv)]

theorem op_LD_flag (instr : Nat) (s : VM) (hm : ∀ i, s.memory i < 65536) :
    (op_LD instr s).reg R_COND = flag_of ((op_LD instr s).reg (instr / 512 % 8)) := by
  have hdr : instr / 512 % 8 ≠ R_COND := by unfold R_COND; omega
  unfold op_LD
  simp only [and_7, and_1FF, shr_9]
  exact write_flag _ _ _ hdr (mem_read_lt _ _ hm)

theorem op_LDR_flag (instr : Nat) (s : VM) (hm : ∀ i, s.memory i < 65536) :
    (op_LDR instr s).reg R_COND = flag_of ((op_LDR instr s).reg (instr / 512 % 8)) := by
  have hdr : instr / 512 % 8 ≠ R_COND := by unfold R_COND; omega
  unfold op_LDR
  simp only [and_7, and_3F, shr_6, shr_9]
  exact write_flag _ _ _ hdr (mem_read_lt _ _ hm)

theorem op_LDI_flag (instr : Nat) (s : VM) (hm : ∀ i, s.memory i < 65536) :
    (op_LDI instr s).reg R_COND = flag_of ((op_LDI instr s).reg (instr / 512 % 8)) := by
  have hdr : instr / 512 % 8 ≠ R_COND := by unfold R_COND; omega
  unfold op_LDI
  simp only [and_7, and_1FF, shr_9]
  exact write_flag _ _ _ hdr (mem_read_lt _ _ (mem_read_memory_lt _ _ hm))

theorem op_LEA_flag (instr : Nat) (s : VM) :
    (op_LEA instr s).reg R_COND = flag_of ((op_LEA instr s).reg (instr / 512 % 8)) := by
  have hdr : instr / 512 % 8 ≠ R_COND := by unfold R_COND; omega
  unfold op_LEA
  simp only [and_7, and_1FF, shr_9]
  exact write_flag _ _ _ hdr (Nat.mod_lt _ (by norm_num))

theorem op_AND_flag (instr : Nat) (s : VM) (hr : ∀ r, s.reg r < 65536) :
    (op_AND instr s).reg R_COND = flag_of ((op_AND instr s).reg (instr / 512 % 8)) := by
  have hdr : instr / 512 % 8 ≠ R_COND := by unfold R_COND; omega
  have hle : ∀ y, s.reg (instr / 64 % 8) &&& y < 65536 := fun y =>
    Nat.lt_of_le_of_lt Nat.and_le_left (hr _)
  unfold op_AND
  simp only [and_1, and_7, and_1F, shr_5, shr_6, shr_9]
  split_ifs
  · exact write_flag _ _ _ hdr (hle _)
  · exact write_flag _ _ _ hdr (hle _)

theorem to_u16_lt (v : Int) : to_u16 v < 65536 := by
  unfold to_u16
  omega

theorem getchar_congr (s t : VM) (h : s.stdin = t.stdin) :
    (getchar s).1 = (getchar t).1 ∧ (getchar s).2.stdin = (getchar t).2.stdin := by
  unfold getchar
  rw [h]
  generalize hl : t.stdin = l at h ⊢
  cases l <;> simp [h, hl]

/-- The effect of `TRAP_GETC`. -/
theorem op_TRAP_GETC (instr : Nat) (s : VM) (h : instr % 256 = 0x20) :
    ∃ s', op_TRAP instr s = some s' ∧
      s'.reg R_R0 = to_u16 (getchar s).1 ∧ s'.reg R_COND = flag_of (s'.reg R_R0) ∧
      s'.stdin = (getchar s).2.stdin ∧ s'.stdout = s.stdout ∧ s'.memory = s.memory ∧
      s'.running = s.running ∧ s'.reg R_R7 = s.reg R_PC := by
  have hc := getchar_congr { s with reg := store s.reg R_R7 (s.reg R_PC) } s rfl
  have hf := getchar_frame { s with reg := store s.reg R_R7 (s.reg R_PC) }
  have h70 : R_R7 ≠ R_R0 := by decide
  have h0c : R_R0 ≠ R_COND := by decide
  have h7c : R_R7 ≠ R_COND := by decide
  unfold op_TRAP
  simp only [and_FF, h, TRAP_GETC, if_true]
  refine ⟨_, rfl, ?_, ?_, ?_, ?_, ?_, ?_, ?_⟩
  · rw [update_flags_reg _ _ _ h0c]
    simp [hc.1]
  · exact write_flag _ R_R0 _ h0c (to_u16_lt _)
  · rw [(update_flags_frame _ _).2.2.1]
    exact hc.2
  · rw [(update_flags_frame _ _).2.2.2.1]
    exact hf.2.2.2.1
  · rw [(update_flags_frame _ _).1]
    exact hf.1
  · rw [(update_flags_frame _ _).2.2.2.2]
    exact hf.2.2.2.2
  · rw [update_flags_reg _ _ _ h7c]
    simp [hf.2.1, h70]

/-- The effect of `TRAP_IN`. -/
theorem op_TRAP_IN (instr : Nat) (s : VM) (h : instr % 256 = 0x23) :
    ∃ s', op_TRAP instr s = some s' ∧
      s'.reg R_R0 = to_u16 (to_char (getchar s).1) ∧ s'.reg R_COND = flag_of (s'.reg R_R0) ∧
      s'.stdin = (getchar s).2.stdin ∧
      s'.stdout = s.stdout ++ prompt ++ [to_uchar (to_char (getchar s).1)] ∧
      s'.memory = s.memory ∧ s'.running = s.running ∧ s'.reg R_R7 = s.reg R_PC := by
  have hc := getchar_congr
    { s with reg := store s.reg R_R7 (s.reg R_PC), stdout := s.stdout ++ prompt } s rfl
  have hf := getchar_frame
    { s with reg := store s.reg R_R7 (s.reg R_PC), stdout := s.stdout ++ prompt }
  have h70 : R_R7 ≠ R_R0 := by decide
  have h0c : R_R0 ≠ R_COND := by decide
  have h7c : R_R7 ≠ R_COND := by decide
  unfold op_TRAP
  simp only [and_FF, h, TRAP_GETC, TRAP_OUT, TRAP_PUTS, TRAP_IN]
  refine ⟨_, rfl, ?_, ?_, ?_, ?_, ?_, ?_, ?_⟩
  · rw [update_flags_reg _ _ _ h0c]
    simp [hc.1]
  · rw [update_flags_reg _ _ _ h0c, update_flags_flag_of _ _ (by simpa using to_u16_lt _)]
  · rw [(update_flags_frame _ _).2.2.1]
    exact hc.2
  · rw [(update_flags_frame _ _).2.2.2.1]
    simp [hf.2.2.2.1, hc.1]
  · rw [(update_flags_frame _ _).1]
    exact hf.1
  · rw [(update_flags_frame _ _).2.2.2.2]
    exact hf.2.2.2.2
  · rw [update_flags_reg _ _ _ h7c]
    simp [hf.2.1, h70]

/-- A trap other than GETC and IN leaves COND as it was. -/
theorem op_TRAP_cond (instr : Nat) (s s' : VM) (hg : instr % 256 ≠ 0x20)
    (hi : instr % 256 ≠ 0x23) (he : op_TRAP instr s = some s') :
    s'.reg R_COND = s.reg R_COND := by
  unfold op_TRAP at he
  simp only [and_FF, TRAP_GETC, TRAP_IN] at he
  rw [if_neg hg] at he
  split_ifs at he
  · cases he; simp [R_COND, R_R7]
  · rw [Option.map_eq_some'] at he
    obtain ⟨out, -, rfl⟩ := he
    simp [R_COND, R_R7]
  · rw [Option.map_eq_some'] at he
    obtain ⟨out, -, rfl⟩ := he
    simp [R_COND, R_R7]
  · cases he; simp [R_COND, R_R7]
  · cases he; simp [R_COND, R_R7]

/-! ## Console input -/

theorem getchar_cons (s : VM) (b : Nat) (rest : List Nat) (hb : b < 256)
    (hin : s.stdin = b :: rest) :
    (getchar s).1 = (b : Int) ∧ (getchar s).2.stdin = rest := by
  unfold getchar
  rw [hin]
  simp [Nat.mod_eq_of_lt hb]

theorem flag_of_lt (v : Nat) (h : v < 65536) :
    flag_of v = if 32768 ≤ v then FL_NEG else if v = 0 then FL_ZRO else FL_POS := by
  unfold flag_of
  rw [testBit_15 v h]
  simp

/-- What `TRAP_GETC` and `TRAP_IN` do with the input byte b: GETC stores b; IN
stores b narrowed to the signed `char` and widened again, which is b below
0x80 and 0xFF00 + b from 0x80 on. -/
theorem trap_input_spec (s : VM) (b : Nat) (rest : List Nat) (hb : b < 256)
    (hin : s.stdin = b :: rest) (hop : (fetch s).1 / 4096 = 15) :
    ((fetch s).1 % 256 = 0x20 →
      ∃ s', step s = some s' ∧ s'.reg R_R0 = b ∧
        s'.reg R_COND = (if b = 0 then FL_ZRO else FL_POS) ∧
        s'.stdout = s.stdout ∧ s'.stdin = rest) ∧
    ((fetch s).1 % 256 = 0x23 →
      ∃ s', step s = some s' ∧ s'.reg R_R0 = (if b < 128 then b else 0xFF00 + b) ∧
        s'.reg R_COND = (if b = 0 then FL_ZRO else if b < 128 then FL_POS else FL_NEG) ∧
        s'.stdout = s.stdout ++ prompt ++ [b] ∧ s'.stdin = rest) := by
  have hpc := fetch_pc_ne_kbsr s (by omega) (by omega)
  have hfs : (fetch s).2.stdin = b :: rest := by rw [fetch_state s hpc]; exact hin
  obtain ⟨g1, g2⟩ := getchar_cons (fetch s).2 b rest hb hfs
  have hout := (fetch_frame s).1
  constructor
  · intro hv
    obtain ⟨s', e, r0, c, i, o, -⟩ := op_TRAP_GETC (fetch s).1 (fetch s).2 hv
    have r0' : s'.reg R_R0 = b := by
      rw [r0, g1]; unfold to_u16; omega
    refine ⟨s', by rw [step_TRAP s hop]; exact e, r0', ?_, by rw [o, hout], by rw [i, g2]⟩
    rw [c, r0', flag_of_lt _ (by omega)]
    split_ifs <;> first | rfl | omega
  · intro hv
    obtain ⟨s', e, r0, c, i, o, -⟩ := op_TRAP_IN (fetch s).1 (fetch s).2 hv
    have r0' : s'.reg R_R0 = (if b < 128 then b else 0xFF00 + b) := by
      rw [r0, g1]; unfold to_u16 to_char
      split_ifs <;> omega
    have ho : to_uchar (to_char (b : Int)) = b := by
      unfold to_uchar to_char
      split_ifs <;> omega
    refine ⟨s', by rw [step_TRAP s hop]; exact e, r0', ?_, by rw [o, hout, g1, ho],
      by rw [i, g2]⟩
    rw [c, r0', flag_of_lt _ (by split_ifs <;> omega)]
    split_ifs <;> first | rfl | omega

/-! ## The string scan of PUTS -/

/-- The scan stops at the first zero word `z0` when it lies within the room
left, having written the low bytes of the cells before it. -/
theorem puts_loop_spec (memory : Nat → Nat) (z0 : Nat) :
    ∀ (room a : Nat) (out : List Nat), a ≤ z0 → z0 - a < room → memory z0 = 0 →
      (∀ x, a ≤ x → x < z0 → memory x ≠ 0) →
      puts_loop memory room a out =
        some (out ++ (List.range' a (z0 - a)).map (fun x => memory x % 256)) := by
  intro room
  induction room with
  | zero => intro a out _ h; omega
  | succ room ih =>
    intro a out ha hroom hz hnz
    by_cases e : a = z0
    · subst e
      rw [puts_loop_stop _ _ _ _ hz]
      simp
    · have hlt : a < z0 := by omega
      rw [puts_loop_more _ _ _ _ (hnz a (le_refl a) hlt),
        ih (a + 1) _ (by omega) (by omega) hz (fun x hx1 hx2 => hnz x (by omega) hx2)]
      have e2 : z0 - a = (z0 - (a + 1)) + 1 := by omega
      rw [e2, List.range'_succ]
      simp

/-- Without a zero word in the room left, the scan leaves the array. -/
theorem puts_loop_none (memory : Nat → Nat) :
    ∀ (room a : Nat) (out : List Nat), (∀ x, a ≤ x → x < a + room → memory x ≠ 0) →
      puts_loop memory room a out = none := by
  intro room
  induction room with
  | zero => intro a out _; rfl
  | succ room ih =>
    intro a out hnz
    rw [puts_loop_more _ _ _ _ (hnz a (le_refl a) (by omega))]
    exact ih (a + 1) _ (fun x hx1 hx2 => hnz x (by omega) (by omega))

/-! ## Claims -/

/-- C1: COND is one-hot at all times.  The reset state has COND = Z; one pass
of the interpreter loop (fetch, PC advance, dispatch, every trap included)
from a state whose COND is one of N, Z, P ends in a state whose COND is again
one of N, Z, P, whatever the memory and the console input; the pass does have
a result unless the fetched word is a string trap (PUTS, PUTSP); and every
state reached from reset by any number of passes has a one-hot COND. -/
theorem c1_cond_one_hot :
    (∀ memory keys stdin, (reset memory keys stdin).reg R_COND = FL_ZRO) ∧
    (∀ s s', one_hot (s.reg R_COND) → step s = some s' → one_hot (s'.reg R_COND)) ∧
    (∀ s, (∀ a, s.memory a < 65536) → ¬ is_string_trap (fetch s).1 → ∃ s', step s = some s') ∧
    (∀ memory keys stdin n s', iterate n (reset memory keys stdin) = some s' →
      one_hot (s'.reg R_COND)) := by
  refine ⟨?_, step_one_hot, ?_, ?_⟩
  · intro memory keys stdin
    simp [reset, R_COND, R_PC]
  · intro s hm hs
    exact exec_isSome _ _ (fetch_lt s hm) hs
  · intro memory keys stdin n s' he
    refine iterate_one_hot n _ s' ?_ he
    simp [reset, R_COND, R_PC, one_hot, FL_ZRO]

/-- Witness for C1: from reset with `ADD R0, R0, #-1` at 0x3000 the first pass
has a result, and its COND (N) is one-hot. -/
theorem c1_cond_one_hot_witness :
    ∃ s', step (reset (store (fun _ => 0) 0x3000 0x103F) [] []) = some s' ∧
      s'.reg R_COND = FL_NEG ∧ one_hot (s'.reg R_COND) := by
  have hs : (step (reset (store (fun _ => 0) 0x3000 0x103F) [] [])).isSome = true := by decide
  obtain ⟨s', h⟩ := Option.isSome_iff_exists.mp hs
  refine ⟨s', h, ?_, c1_cond_one_hot.2.1 _ s' (by decide) h⟩
  have h2 : (step (reset (store (fun _ => 0) 0x3000 0x103F) [] [])).map (fun t => t.reg R_COND)
      = some FL_NEG := by decide
  rw [h] at h2
  simpa using h2

/-- C2: for every register file of 16-bit words and every general register
index r in 0..7, `update_flags(r)` sets COND to N when bit 15 of `reg[r]` is
set, to Z when `reg[r]` is zero and to P otherwise, and changes no other
register, no memory cell and nothing of the console. -/
theorem c2_update_flags (s : VM) (r : Nat) (_hr : r ≤ 7) (hw : s.reg r < 65536) :
    (update_flags r s).reg R_COND =
      (if (s.reg r).testBit 15 then FL_NEG else if s.reg r = 0 then FL_ZRO else FL_POS) ∧
    (∀ i, i ≠ R_COND → (update_flags r s).reg i = s.reg i) ∧
    (update_flags r s).memory = s.memory ∧
    (update_flags r s).keys = s.keys ∧ (update_flags r s).stdin = s.stdin ∧
    (update_flags r s).stdout = s.stdout ∧ (update_flags r s).running = s.running := by
  exact ⟨update_flags_flag_of r s hw, fun i hi => update_flags_reg r i s hi,
    update_flags_frame r s⟩

/-- Witness for C2: R3 = 0x8000 (bit 15 set) gives COND = N. -/
theorem c2_update_flags_witness :
    (3 ≤ 7 ∧ (state_of (fun _ => 0) (store (fun _ => 0) 3 0x8000)).reg 3 < 65536) ∧
    (update_flags 3 (state_of (fun _ => 0) (store (fun _ => 0) 3 0x8000))).reg R_COND
      = FL_NEG :=
  ⟨⟨by decide, by decide⟩,
    (c2_update_flags (state_of (fun _ => 0) (store (fun _ => 0) 3 0x8000)) 3
      (by decide) (by decide)).1.trans (by decide)⟩

/-- C3: for every field width K with 1 ≤ K ≤ 15 and every x < 2^K, when bit
K-1 of x is 0 then `sign_extend(x, K) = x`, and when bit K-1 of x is 1 then
`sign_extend(x, K) = (x | (0xFFFF << K)) & 0xFFFF`. -/
theorem c3_sign_extend_cases (K x : Nat) (_hK1 : 1 ≤ K) (_hK15 : K ≤ 15) (_hx : x < 2 ^ K) :
    (x.testBit (K - 1) = false → sign_extend x K = x) ∧
    (x.testBit (K - 1) = true → sign_extend x K = (x ||| (0xFFFF <<< K)) &&& 0xFFFF) := by
  have hmask : ∀ y : Nat, y &&& 0xFFFF = y % 65536 := fun y =>
    Nat.and_pow_two_sub_one_eq_mod y 16
  have hbit : (x >>> (K - 1)) &&& 1 ≠ 0 ↔ x.testBit (K - 1) = true := by
    rw [shiftRight_and_one, Nat.testBit_to_div_mod]
    simp only [decide_eq_true_eq]
    omega
  constructor
  · intro h
    unfold sign_extend
    rw [if_neg]
    rw [hbit, h]
    simp
  · intro h
    unfold sign_extend
    rw [if_pos (hbit.mpr h), hmask]

/-- Witness for C3: the 5-bit field 0x1F (bit 4 set) extends to 0xFFFF. -/
theorem c3_sign_extend_cases_witness :
    (1 ≤ 5 ∧ 5 ≤ 15 ∧ 0x1F < 2 ^ 5) ∧ (Nat.testBit 0x1F (5 - 1) = true ∧
      sign_extend 0x1F 5 = 0xFFFF) :=
  ⟨⟨by decide, by decide, by decide⟩, by decide,
    ((c3_sign_extend_cases 5 0x1F (by decide) (by decide) (by decide)).2 (by decide)).trans
      (by decide)⟩

/-- C4: `sign_extend` and truncation to K bits are mutually inverse on K-bit
two's-complement values.  For 1 ≤ K ≤ 15 and every integer v with
-2^(K-1) ≤ v < 2^(K-1), `sign_extend(v mod 2^K, K)` is `v mod 2^16`, the 16-bit
two's-complement encoding of v; and for every x < 2^K,
`sign_extend(x, K) & (2^K - 1) = x`. -/
theorem c4_sign_extend_truncate (K : Nat) (hK1 : 1 ≤ K) (hK15 : K ≤ 15) :
    (∀ v : Int, -(2 : Int) ^ (K - 1) ≤ v → v < (2 : Int) ^ (K - 1) →
      sign_extend (v % (2 : Int) ^ K).toNat K = (v % (2 : Int) ^ 16).toNat) ∧
    (∀ x : Nat, x < 2 ^ K → sign_extend x K &&& (2 ^ K - 1) = x) := by
  constructor
  · intro v hlo hhi
    have hx : (v % (2 : Int) ^ K).toNat < 2 ^ K := by
      have h1 : v % (2 : Int) ^ K < (2 : Int) ^ K := Int.emod_lt_of_pos _ (by positivity)
      have h2 : 0 ≤ v % (2 : Int) ^ K := Int.emod_nonneg _ (by positivity)
      zify
      rw [Int.toNat_of_nonneg h2]
      exact_mod_cast h1
    rw [sign_extend_eq _ K (by omega) hx]
    interval_cases K <;> norm_num at hlo hhi ⊢ <;> split_ifs <;> omega
  · intro x hx
    rw [Nat.and_pow_two_sub_one_eq_mod, sign_extend_eq _ K (by omega) hx]
    interval_cases K <;> norm_num at hx ⊢ <;> split_ifs <;> omega

/-- Witness for C4: K = 5, v = -3 encodes as 0x1D and extends to 0xFFFD. -/
theorem c4_sign_extend_truncate_witness :
    (1 ≤ 5 ∧ 5 ≤ 15) ∧ sign_extend 0x1D 5 = 0xFFFD ∧
      sign_extend 0x1D 5 &&& (2 ^ 5 - 1) = 0x1D := by
  have h := c4_sign_extend_truncate 5 (by decide) (by decide)
  have h1 := h.1 (-3) (by decide) (by decide)
  have h2 := h.2 0x1D (by decide)
  exact ⟨⟨by decide, by decide⟩, h1.trans (by decide), h2⟩

/-- C5: `swap16` is an involution on 16-bit words, `swap16(swap16(x)) = x` for
every x in 0..0xFFFF, and `swap16(x)` has the high and the low byte of x
exchanged. -/
theorem c5_swap16_involution (x : Nat) (hx : x < 65536) :
    swap16 (swap16 x) = x ∧ swap16 x < 65536 ∧
    swap16 x / 256 = x % 256 ∧ swap16 x % 256 = x / 256 := by
  have h1 := swap16_eq x hx
  have h2 : swap16 x < 65536 := by rw [h1]; omega
  have h3 := swap16_eq (swap16 x) h2
  refine ⟨?_, h2, ?_, ?_⟩
  · rw [h3, h1]; omega
  · rw [h1]; omega
  · rw [h1]; omega

/-- Witness for C5: 0x1234 swaps to 0x3412 and back. -/
theorem c5_swap16_involution_witness :
    0x1234 < 65536 ∧ swap16 (swap16 0x1234) = 0x1234 ∧ swap16 0x1234 / 256 = 0x34 :=
  ⟨by decide, (c5_swap16_involution 0x1234 (by decide)).1,
    (c5_swap16_involution 0x1234 (by decide)).2.2.1.trans (by decide)⟩

/-- C6 (counterexample): the stream 30 00 AB has origin 0x3000 and one odd
trailing byte.  No body word is stored, yet the cell at 0x3000, outside the
(empty) stored range, changes from 0 to 0xAB. -/
theorem c6_read_image_file_counterexample :
    words_stored [0x30, 0x00, 0xAB] (fun _ => 0) = some 0 ∧
    (read_image_file [0x30, 0x00, 0xAB] (fun _ => 0)).map (fun m => m 0x3000) = some 0xAB ∧
    (fun _ => 0 : Nat → Nat) 0x3000 = 0 := by
  decide

/-- C6 (amended): for every image byte stream of length at least 2 and every
initial memory, with origin o = b[0]*256 + b[1] and n the number of body words
stored, `read_image_file` leaves memory[o+i] = b[2+2i]*256 + b[3+2i] for every
i < n, and every cell below o or above o+n keeps its previous value; the cell
o+n itself keeps its value when the stream has even length or `max_read` words
were read. -/
theorem c6_read_image_file (file : List Nat) (memory : Nat → Nat)
    (hlen : 2 ≤ file.length) (hbytes : ∀ x ∈ file, x < 256) :
    ∃ m' n, read_image_file file memory = some m' ∧ words_stored file memory = some n ∧
      2 + 2 * n ≤ file.length ∧
      (∀ i, i < n → m' (file.getD 0 0 * 256 + file.getD 1 0 + i) =
        file.getD (2 + 2 * i) 0 * 256 + file.getD (3 + 2 * i) 0) ∧
      (∀ a, (a < file.getD 0 0 * 256 + file.getD 1 0 ∨
          file.getD 0 0 * 256 + file.getD 1 0 + n < a) → m' a = memory a) ∧
      ((file.length % 2 = 0 ∨
          n = (MEMORY_MAX - (file.getD 0 0 * 256 + file.getD 1 0)) % 65536) →
        m' (file.getD 0 0 * 256 + file.getD 1 0 + n) =
          memory (file.getD 0 0 * 256 + file.getD 1 0 + n)) := by
  match file, hlen, hbytes with
  | b0 :: b1 :: body, _, hbytes =>
    have h0 : b0 < 256 := hbytes b0 (by simp)
    have h1 : b1 < 256 := hbytes b1 (by simp)
    have hb : ∀ x ∈ body, x < 256 := fun x hx => hbytes x (by simp [hx])
    obtain ⟨m', n, e1, e2, e3, e4, e5, e6⟩ := read_image_file_spec b0 b1 body memory h0 h1 hb
    refine ⟨m', n, e1, e2, e3, ?_, ?_, ?_⟩
    · intro i hi
      have a1 : 2 + 2 * i = (2 * i + 1) + 1 := by omega
      have a2 : 3 + 2 * i = (2 * i + 1 + 1) + 1 := by omega
      rw [a1, a2]
      simp only [List.getD_cons_succ, List.getD_cons_zero]
      exact e4 i hi
    · intro a ha
      simp only [List.getD_cons_succ, List.getD_cons_zero] at ha
      exact e5 a ha
    · intro h
      simp only [List.getD_cons_succ, List.getD_cons_zero, List.length_cons] at h ⊢
      exact e6 (by omega)

/-- Witness for C6: the stream 30 00 12 34 puts the word 0x1234 at 0x3000. -/
theorem c6_read_image_file_witness :
    (2 ≤ [0x30, 0x00, 0x12, 0x34].length ∧ ∀ x ∈ [0x30, 0x00, 0x12, 0x34], x < 256) ∧
    (read_image_file [0x30, 0x00, 0x12, 0x34] (fun _ => 0)).map (fun m => m 0x3000)
      = some 0x1234 := by
  refine ⟨⟨by decide, by decide⟩, ?_⟩
  obtain ⟨m', n, e1, e2, -, e4, -, -⟩ :=
    c6_read_image_file [0x30, 0x00, 0x12, 0x34] (fun _ => 0) (by decide) (by decide)
  have hn : words_stored [0x30, 0x00, 0x12, 0x34] (fun _ => 0) = some 1 := by decide
  rw [hn] at e2
  cases e2
  rw [e1]
  exact congrArg some (e4 0 (by decide))

/-- C7 (the code at origin 0): a stream whose origin is 0x0000 stores no body
word at all and leaves the memory as it was, because `max_read`, the
`uint16_t` value of `MEMORY_MAX - 0`, is 0; for the stream 00 00 12 34 the
claimed count min((4 - 2) / 2, 65536 - 0) is 1. -/
theorem c7_origin_zero_stores_nothing (body : List Nat) (memory : Nat → Nat) :
    words_stored (0 :: 0 :: body) memory = some 0 ∧
    read_image_file (0 :: 0 :: body) memory = some memory ∧
    words_stored [0x00, 0x00, 0x12, 0x34] memory = some 0 ∧
    min (([0x00, 0x00, 0x12, 0x34].length - 2) / 2) (65536 - 0) = 1 := by
  have hz : swap16 (0 + 256 * 0) = 0 := by decide
  refine ⟨?_, ?_, ?_, by decide⟩
  · simp [words_stored, hz, MEMORY_MAX, fread]
  · simp [read_image_file, hz, MEMORY_MAX, fread, swap_pass]
  · simp [words_stored, hz, MEMORY_MAX, fread]

/-- C8: for every machine state and every fetched instruction word with opcode
0x1 (ADD), with DR = bits[11:9] and SR1 = bits[8:6]: when bit 5 is set the new
reg[DR] is (reg[SR1] + s) mod 2^16, s in -16..15 being the two's-complement
value of bits[4:0]; otherwise the new reg[DR] is (reg[SR1] + reg[SR2]) mod 2^16
with SR2 = bits[2:0]; in both cases COND is then the N/Z/P flag of the new
reg[DR].  From reset, 0x1023 gives R0 = 3 and COND = P; with R0 = 0x7FFF,
ADD R0,R0,#1 gives R0 = 0x8000 and COND = N. -/
theorem c8_add :
    (∀ s : VM, (fetch s).1 / 4096 = 1 →
      ∃ s', step s = some s' ∧
        ((fetch s).1 / 32 % 2 = 1 →
          (s'.reg ((fetch s).1 / 512 % 8) : Int) =
            ((s.reg ((fetch s).1 / 64 % 8) : Int) +
              (if (fetch s).1 % 32 < 16 then (((fetch s).1 % 32 : Nat) : Int)
               else (((fetch s).1 % 32 : Nat) : Int) - 32)) % 65536) ∧
        ((fetch s).1 / 32 % 2 = 0 →
          s'.reg ((fetch s).1 / 512 % 8) =
            (s.reg ((fetch s).1 / 64 % 8) + s.reg ((fetch s).1 % 8)) % 65536) ∧
        s'.reg R_COND = flag_of (s'.reg ((fetch s).1 / 512 % 8))) ∧
    (∀ memory keys stdin, memory 0x3000 = 0x1023 →
      ∃ s', step (reset memory keys stdin) = some s' ∧
        s'.reg R_R0 = 3 ∧ s'.reg R_COND = FL_POS) ∧
    (∀ s : VM, s.reg R_R0 = 0x7FFF → (fetch s).1 = 0x1021 →
      ∃ s', step s = some s' ∧ s'.reg R_R0 = 0x8000 ∧ s'.reg R_COND = FL_NEG) := by
  have hr : ∀ (s : VM) (x : Nat), (fetch s).2.reg (x % 8) = s.reg (x % 8) := fun s x =>
    fetch_reg_general s _ (by unfold R_PC; omega)
  refine ⟨?_, ?_, ?_⟩
  · intro s hop
    refine ⟨_, step_ADD s hop, ?_, ?_, (op_ADD_spec _ _).2⟩
    · intro hb
      rw [(op_ADD_spec _ _).1, if_pos hb, hr]
      split_ifs <;> omega
    · intro hb
      have hb' : ¬ ((fetch s).1 / 32 % 2 = 1) := by omega
      rw [(op_ADD_spec _ _).1, if_neg hb', hr, hr]
  · intro memory keys stdin hm
    have hf : (fetch (reset memory keys stdin)).1 = 0x1023 := by
      rw [fetch_plain _ (by simp [reset, R_PC, MR_KBSR, PC_START])]
      simpa [reset, R_PC, PC_START] using hm
    have hop : (fetch (reset memory keys stdin)).1 / 4096 = 1 := by rw [hf]
    have h := op_ADD_spec (fetch (reset memory keys stdin)).1 (fetch (reset memory keys stdin)).2
    rw [hf] at h
    norm_num at h
    have h0 : (fetch (reset memory keys stdin)).2.reg 0 = 0 := by
      rw [fetch_reg_general _ _ (by decide)]
      rfl
    rw [hf.symm] at h
    refine ⟨_, step_ADD _ hop, ?_, ?_⟩
    · rw [show R_R0 = 0 from rfl, h.1, h0]
    · rw [h.2, h.1, h0]
      decide
  · intro s h0 hf
    have hop : (fetch s).1 / 4096 = 1 := by rw [hf]
    have h := op_ADD_spec (fetch s).1 (fetch s).2
    have hr0 : (fetch s).2.reg 0 = 0x7FFF := by
      rw [fetch_reg_general _ _ (by decide)]
      exact h0
    rw [hf] at h
    norm_num at h
    rw [hf.symm] at h
    refine ⟨_, step_ADD _ hop, ?_, ?_⟩
    · rw [show R_R0 = 0 from rfl, h.1, hr0]
    · rw [h.2, h.1, hr0]
      decide

/-- Witness for C8: `ADD R2, R1, #-1` (0x147F) at 0x3000 from reset, where R1 = 0,
leaves R2 = (0 + -1) mod 2^16 = 0xFFFF and COND = N. -/
theorem c8_add_witness :
    (fetch (reset (store (fun _ => 0) 0x3000 0x147F) [] [])).1 / 4096 = 1 ∧
    ∃ s', step (reset (store (fun _ => 0) 0x3000 0x147F) [] []) = some s' ∧
      s'.reg 2 = 0xFFFF ∧ s'.reg R_COND = FL_NEG := by
  refine ⟨by decide, ?_⟩
  obtain ⟨s', hs, h1, -, h3⟩ :=
    c8_add.1 (reset (store (fun _ => 0) 0x3000 0x147F) [] []) (by decide)
  have hf : (fetch (reset (store (fun _ => 0) 0x3000 0x147F) [] [])).1 = 0x147F := by decide
  rw [hf] at h1 h3
  have h1' := h1 (by decide)
  norm_num [reset, store, R_PC, R_COND] at h1'
  have h2 : s'.reg 2 = 0xFFFF := by omega
  refine ⟨s', hs, h2, ?_⟩
  have e : (0x147F / 512 % 8 : Nat) = 2 := by decide
  rw [h3, e, h2]
  decide

/-- C9 (counterexample): PC = 0xFFF0, memory[0xFFF0] = 0x2100 (LD R0 with
pcOffset9 = 0x100), memory[0x00F0] = 0x1111, memory[0xFEF1] = 0x2222.  After the
instruction R0 = 0x2222, the word at 0xFEF1, not the word at 0x00F0. -/
theorem c9_ld_offset_counterexample :
    (step (state_of
      (store (store (store (fun _ => 0) 0xFFF0 0x2100) 0x00F0 0x1111) 0xFEF1 0x2222)
      (store (store (fun _ => 0) R_COND FL_ZRO) R_PC 0xFFF0))).map (fun t => t.reg R_R0)
      = some 0x2222 ∧
    (store (store (store (fun _ => 0) 0xFFF0 0x2100) 0x00F0 0x1111) 0xFEF1 0x2222) 0x00F0
      = 0x1111 ∧
    0x2100 / 4096 = OP_LD ∧ 0x2100 % 512 = 0x100 := by
  decide

/-- C9 (amended): an LD instruction fetched with PC = 0xFFF0 whose pcOffset9
field is 0x100 reads from memory address 0xFEF1 (PC advances to 0xFFF1 and the
field, sign-extended to 0xFF00, is -256): the loaded register receives
memory[0xFEF1].  The wrap to low memory happens with a positive offset: with
pcOffset9 = 0x0FF the loaded register receives memory[0x00F0]. -/
theorem c9_ld_offset (s : VM) (hpc : s.reg R_PC = 0xFFF0) (hop : s.memory 0xFFF0 / 4096 = 2) :
    (s.memory 0xFFF0 % 512 = 0x100 →
      ∃ s', step s = some s' ∧ s'.reg (s.memory 0xFFF0 / 512 % 8) = s.memory 0xFEF1) ∧
    (s.memory 0xFFF0 % 512 = 0x0FF →
      ∃ s', step s = some s' ∧ s'.reg (s.memory 0xFFF0 / 512 % 8) = s.memory 0x00F0) := by
  have hf : fetch s = (s.memory 0xFFF0, { s with reg := store s.reg R_PC 0xFFF1 }) := by
    rw [fetch_plain s (by rw [hpc]; decide), hpc]
  have hop' : (fetch s).1 / 4096 = 2 := by rw [hf]; exact hop
  constructor
  · intro hoff
    refine ⟨_, step_LD s hop', ?_⟩
    have ha : ((fetch s).2.reg R_PC + sign_extend ((fetch s).1 % 512) 9) % 65536 = 0xFEF1 := by
      rw [hf]
      simp only [store_same, hoff]
      decide
    have h := op_LD_plain (fetch s).1 (fetch s).2 (by rw [ha]; decide)
    rw [ha] at h
    rw [hf] at h ⊢
    exact h
  · intro hoff
    refine ⟨_, step_LD s hop', ?_⟩
    have ha : ((fetch s).2.reg R_PC + sign_extend ((fetch s).1 % 512) 9) % 65536 = 0x00F0 := by
      rw [hf]
      simp only [store_same, hoff]
      decide
    have h := op_LD_plain (fetch s).1 (fetch s).2 (by rw [ha]; decide)
    rw [ha] at h
    rw [hf] at h ⊢
    exact h

/-- Witness for C9: the state of the counterexample; R0 receives memory[0xFEF1]. -/
theorem c9_ld_offset_witness :
    ((state_of
        (store (store (store (fun _ => 0) 0xFFF0 0x2100) 0x00F0 0x1111) 0xFEF1 0x2222)
        (store (store (fun _ => 0) R_COND FL_ZRO) R_PC 0xFFF0)).reg R_PC = 0xFFF0 ∧
      (store (store (store (fun _ => 0) 0xFFF0 0x2100) 0x00F0 0x1111) 0xFEF1 0x2222) 0xFFF0
        / 4096 = 2 ∧
      (store (store (store (fun _ => 0) 0xFFF0 0x2100) 0x00F0 0x1111) 0xFEF1 0x2222) 0xFFF0
        % 512 = 0x100) ∧
    ∃ s', step (state_of
        (store (store (store (fun _ => 0) 0xFFF0 0x2100) 0x00F0 0x1111) 0xFEF1 0x2222)
        (store (store (fun _ => 0) R_COND FL_ZRO) R_PC 0xFFF0)) = some s' ∧
      s'.reg 0 = 0x2222 :=
  ⟨by decide,
    (c9_ld_offset (state_of
        (store (store (store (fun _ => 0) 0xFFF0 0x2100) 0x00F0 0x1111) 0xFEF1 0x2222)
        (store (store (fun _ => 0) R_COND FL_ZRO) R_PC 0xFFF0)) (by decide) (by decide)).1
      (by decide)⟩

/-- C10 (counterexample): on the memory of scenario 3 the loop stops after three
passes with the output "%HIHALT\n", which is not "HI" followed by "HALT\n":
`LEA R0, #1` at 0x3000 yields R0 = 0x3002, the address of the HALT word 0xF025,
whose low byte 0x25 is printed first. -/
theorem c10_scenario3_counterexample :
    (run 3 (reset scenario3_memory [] [])).map (fun t => (t.stdout, t.running)) =
      some ([0x25, 0x48, 0x49, 0x48, 0x41, 0x4C, 0x54, 0x0A], false) ∧
    [0x25, 0x48, 0x49, 0x48, 0x41, 0x4C, 0x54, 0x0A] ≠ [0x48, 0x49] ++ halt_text := by
  decide

/-- C10 (amended): from the reset state with memory[0x3000..0x3005] = 0xE001,
0xF022, 0xF025, 0x0048, 0x0049, 0x0000, whatever the rest of the memory and the
console input, the interpreter loop stops (after three passes) and has then
written exactly the bytes "%HI" followed by "HALT\n"; with `LEA R0, #2`
(0xE002) as the first word the output is exactly "HI" followed by "HALT\n". -/
theorem c10_scenario3 (memory : Nat → Nat) (keys : List Bool) (stdin : List Nat) (n : Nat)
    (h1 : memory 0x3001 = 0xF022) (h2 : memory 0x3002 = 0xF025)
    (h3 : memory 0x3003 = 0x0048) (h4 : memory 0x3004 = 0x0049)
    (h5 : memory 0x3005 = 0x0000) :
    (memory 0x3000 = 0xE001 →
      ∃ s', run (n + 3) (reset memory keys stdin) = some s' ∧
        s'.stdout = [0x25, 0x48, 0x49] ++ halt_text ∧ s'.running = false) ∧
    (memory 0x3000 = 0xE002 →
      ∃ s', run (n + 3) (reset memory keys stdin) = some s' ∧
        s'.stdout = [0x48, 0x49] ++ halt_text ∧ s'.running = false) := by
  constructor
  · intro h0
    refine scenario3_run memory keys stdin 0xE001 0x3002 _ h0 (by decide) (by decide)
      (by decide) h1 h2 ?_ n
    rw [show MEMORY_MAX - 0x3002 = 53242 + 1 + 1 + 1 + 1 from rfl,
      puts_loop_more _ _ _ _ (by rw [h2]; decide),
      puts_loop_more _ _ _ _ (by rw [h3]; decide),
      puts_loop_more _ _ _ _ (by rw [h4]; decide),
      puts_loop_stop _ _ _ _ h5, h2, h3, h4]
    rfl
  · intro h0
    refine scenario3_run memory keys stdin 0xE002 0x3003 _ h0 (by decide) (by decide)
      (by decide) h1 h2 ?_ n
    rw [show MEMORY_MAX - 0x3003 = 53242 + 1 + 1 + 1 from rfl,
      puts_loop_more _ _ _ _ (by rw [h3]; decide),
      puts_loop_more _ _ _ _ (by rw [h4]; decide),
      puts_loop_stop _ _ _ _ h5, h3, h4]
    rfl

/-- Witness for C10: the memory that holds the six words and zero elsewhere,
with an idle console. -/
theorem c10_scenario3_witness :
    (scenario3_memory 0x3001 = 0xF022 ∧ scenario3_memory 0x3002 = 0xF025 ∧
      scenario3_memory 0x3003 = 0x0048 ∧ scenario3_memory 0x3004 = 0x0049 ∧
      scenario3_memory 0x3005 = 0x0000 ∧ scenario3_memory 0x3000 = 0xE001) ∧
    ∃ s', run (0 + 3) (reset scenario3_memory [] []) = some s' ∧
      s'.stdout = [0x25, 0x48, 0x49] ++ halt_text ∧ s'.running = false :=
  ⟨by decide,
    (c10_scenario3 scenario3_memory [] [] 0 (by decide) (by decide) (by decide) (by decide)
      (by decide)).1 (by decide)⟩

/-- C11 (counterexample): from reset the program `LD R1,+1; JMP R1` reaches
PC = 0xFE00 in two passes, with memory[0xFE00] = 0x1234 and no key pending.
The third pass fetches at KBSR the word 0, a BR with nzp = 0, and after it
memory[0xFE00] is 0, no longer 0x1234: more than PC has changed. -/
theorem c11_br_counterexample :
    (iterate 2 (reset (kbsr_jump_memory 0x1234) [] [])).map
      (fun t => (t.reg R_PC, t.reg R_COND, (fetch t).1 / 4096, (fetch t).1 / 512 % 8,
        t.memory 0xFE00))
      = some (0xFE00, FL_NEG, 0, 0, 0x1234) ∧
    (iterate 3 (reset (kbsr_jump_memory 0x1234) [] [])).map
      (fun t => (t.reg R_PC, t.memory 0xFE00)) = some (0xFE01, 0) := by
  decide

/-- C11 (amended): for every state whose COND is one-hot and every BR
instruction word (opcode 0x0) fetched at address a, the branch is taken iff
(nzp & COND) is not 0: then PC = a + 1 + sext9(bits[8:0]) mod 2^16, otherwise
PC = a+1 mod 2^16.  With nzp = 7 it is always taken, with nzp = 0 never.  In
every case no register but PC, no input and no output changes, and no memory
cell other than 0xFE00; when a is not 0xFE00 memory is unchanged altogether
(a fetch at 0xFE00 is a keyboard poll, which has set memory[0xFE00] to 0).
After AND R0,R0,#0 a BRz +2 leaves PC two words past the following
instruction. -/
theorem c11_br :
    (∀ s : VM, one_hot (s.reg R_COND) → (fetch s).1 / 4096 = 0 →
      ∃ s', step s = some s' ∧
        ((fetch s).1 / 512 % 8 &&& s.reg R_COND ≠ 0 →
          (s'.reg R_PC : Int) =
            ((s.reg R_PC : Int) + 1 +
              (if (fetch s).1 % 512 < 256 then (((fetch s).1 % 512 : Nat) : Int)
               else (((fetch s).1 % 512 : Nat) : Int) - 512)) % 65536) ∧
        ((fetch s).1 / 512 % 8 &&& s.reg R_COND = 0 →
          s'.reg R_PC = (s.reg R_PC + 1) % 65536) ∧
        ((fetch s).1 / 512 % 8 = 7 → (fetch s).1 / 512 % 8 &&& s.reg R_COND ≠ 0) ∧
        ((fetch s).1 / 512 % 8 = 0 → (fetch s).1 / 512 % 8 &&& s.reg R_COND = 0) ∧
        (∀ r, r ≠ R_PC → s'.reg r = s.reg r) ∧
        s'.stdin = s.stdin ∧ s'.stdout = s.stdout ∧ s'.running = s.running ∧
        (∀ x, x ≠ 0xFE00 → s'.memory x = s.memory x) ∧
        (s.reg R_PC ≠ 0xFE00 → s'.memory = s.memory ∧ s'.keys = s.keys)) ∧
    (∀ s : VM, (fetch s).1 = 0x5020 →
      ∃ s1, step s = some s1 ∧
        ((fetch s1).1 = 0x0402 →
          ∃ s2, step s1 = some s2 ∧ s2.reg R_PC = (s.reg R_PC + 4) % 65536)) := by
  constructor
  · intro s hc hop
    obtain ⟨b1, b2, b3, b4, -, b6, b7, b8⟩ := op_BR_spec (fetch s).1 (fetch s).2
    obtain ⟨f1, f2, f3⟩ := fetch_op0_frame s hop
    rw [fetch_cond] at b1 b2
    refine ⟨_, step_BR s hop, ?_, ?_, ?_, ?_, ?_, ?_, ?_, ?_, ?_, ?_⟩
    · intro ht
      rw [b1 ht, fetch_reg_pc, sign_extend_9 _ (Nat.mod_lt _ (by norm_num))]
      split_ifs <;> omega
    · intro ht
      rw [b2 ht, fetch_reg_pc]
    · intro h7
      rw [h7]
      rcases hc with h | h | h <;> rw [h] <;> decide
    · intro h0
      rw [h0]
      exact Nat.zero_and _
    · intro r hr
      rw [b3 r hr, fetch_reg_general _ _ hr]
    · rw [b6, f1]
    · rw [b7, (fetch_frame s).1]
    · rw [b8, (fetch_frame s).2]
    · intro x hx
      rw [b4, f2 x hx]
    · intro hpc
      obtain ⟨g1, g2⟩ := f3 hpc
      rw [b4]
      exact ⟨g1, by rw [← g2]; exact (op_BR_spec (fetch s).1 (fetch s).2).2.2.2.2.1⟩
  · intro s hf
    have hop : (fetch s).1 / 4096 = 5 := by rw [hf]
    have z : (op_AND (fetch s).1 (fetch s).2).reg R_COND = FL_ZRO ∧
        (op_AND (fetch s).1 (fetch s).2).reg R_PC = (s.reg R_PC + 1) % 65536 := by
      rw [hf]
      unfold op_AND
      have e1 : (0x5020 >>> 5) &&& 0x1 ≠ 0 := by decide
      have e2 : sign_extend (0x5020 &&& 0x1F) 5 = 0 := by decide
      have e3 : (0x5020 >>> 9) &&& 0x7 = 0 := by decide
      simp only [if_pos e1, e2, e3, Nat.and_zero]
      constructor
      · rw [update_flags_cond]
        simp
      · rw [update_flags_reg _ _ _ (by decide)]
        show store (fetch s).2.reg 0 0 R_PC = _
        rw [store_other _ _ _ _ (by decide), fetch_reg_pc]
    refine ⟨_, step_AND s hop, ?_⟩
    generalize op_AND (fetch s).1 (fetch s).2 = s1 at z
    intro hb
    obtain ⟨b1, -⟩ := op_BR_spec (fetch s1).1 (fetch s1).2
    refine ⟨_, step_BR s1 (by rw [hb]), ?_⟩
    rw [fetch_cond, z.1, hb] at b1
    rw [hb, b1 (by decide), fetch_reg_pc, z.2]
    have e : sign_extend (0x0402 % 512) 9 = 2 := by decide
    rw [e]
    omega

/-- Witness for C11: `BRn -2` (0x09FE) at 0x3000 with COND = N goes back to
0x2FFF. -/
theorem c11_br_witness :
    (one_hot ((state_of (store (fun _ => 0) 0x3000 0x09FE)
        (store (store (fun _ => 0) R_COND FL_NEG) R_PC 0x3000)).reg R_COND) ∧
      (fetch (state_of (store (fun _ => 0) 0x3000 0x09FE)
        (store (store (fun _ => 0) R_COND FL_NEG) R_PC 0x3000))).1 / 4096 = 0) ∧
    ∃ s', step (state_of (store (fun _ => 0) 0x3000 0x09FE)
        (store (store (fun _ => 0) R_COND FL_NEG) R_PC 0x3000)) = some s' ∧
      s'.reg R_PC = 0x2FFF := by
  refine ⟨by decide, ?_⟩
  obtain ⟨s', h1, h2, -⟩ := c11_br.1 (state_of (store (fun _ => 0) 0x3000 0x09FE)
    (store (store (fun _ => 0) R_COND FL_NEG) R_PC 0x3000)) (by decide) (by decide)
  refine ⟨s', h1, ?_⟩
  have h := h2 (by decide)
  have e : (fetch (state_of (store (fun _ => 0) 0x3000 0x09FE)
    (store (store (fun _ => 0) R_COND FL_NEG) R_PC 0x3000))).1 = 0x09FE := by decide
  rw [e] at h
  have e2 : (state_of (store (fun _ => 0) 0x3000 0x09FE)
    (store (store (fun _ => 0) R_COND FL_NEG) R_PC 0x3000)).reg R_PC = 0x3000 := by decide
  rw [e2] at h
  norm_num at h
  omega

/-- C12: for every state and every pair of registers DR, SR in 0..7, executing
NOT DR,SR followed by NOT DR,DR leaves reg[DR] equal to the original reg[SR]
and COND equal to the N/Z/P flag of that value, exactly as the single
assignment reg[DR] := reg[SR] followed by `update_flags(DR)` would (on every
register but PC); memory and the other general registers are unchanged. -/
theorem c12_not_not (s : VM) (hw : s.reg ((fetch s).1 / 64 % 8) < 65536)
    (h1 : (fetch s).1 / 4096 = 9) :
    ∃ s1, step s = some s1 ∧
      ((fetch s1).1 / 4096 = 9 ∧ (fetch s1).1 / 512 % 8 = (fetch s).1 / 512 % 8 ∧
          (fetch s1).1 / 64 % 8 = (fetch s).1 / 512 % 8 →
        ∃ s2, step s1 = some s2 ∧
          s2.reg ((fetch s).1 / 512 % 8) = s.reg ((fetch s).1 / 64 % 8) ∧
          s2.reg R_COND = flag_of (s.reg ((fetch s).1 / 64 % 8)) ∧
          (∀ r, r ≠ R_PC → s2.reg r =
            (update_flags ((fetch s).1 / 512 % 8)
              { s with reg :=
                  (store s.reg ((fetch s).1 / 512 % 8) (s.reg ((fetch s).1 / 64 % 8))) }).reg
              r) ∧
          s2.memory = s.memory ∧
          (∀ r, r ≤ 7 → r ≠ (fetch s).1 / 512 % 8 → s2.reg r = s.reg r)) := by
  have hdr7 : (fetch s).1 / 512 % 8 ≠ R_PC := by unfold R_PC; omega
  have hdrc : (fetch s).1 / 512 % 8 ≠ R_COND := by unfold R_COND; omega
  have hsr7 : (fetch s).1 / 64 % 8 ≠ R_PC := by unfold R_PC; omega
  obtain ⟨k1, -, k3, k4, -⟩ := op_NOT_spec (fetch s).1 (fetch s).2
  have hpc : s.reg R_PC ≠ MR_KBSR := fetch_pc_ne_kbsr s (by omega) (by omega)
  have v1 : (op_NOT (fetch s).1 (fetch s).2).reg ((fetch s).1 / 512 % 8) =
      65535 - s.reg ((fetch s).1 / 64 % 8) := by
    rw [k1, fetch_reg_general _ _ hsr7, xor_FFFF _ hw]
  have o1 : ∀ r, r ≠ (fetch s).1 / 512 % 8 → r ≠ R_COND → r ≠ R_PC →
      (op_NOT (fetch s).1 (fetch s).2).reg r = s.reg r := by
    intro r a b c
    rw [k3 r a b, fetch_reg_general _ _ c]
  have m1 : (op_NOT (fetch s).1 (fetch s).2).memory = s.memory := by
    rw [k4, fetch_state s hpc]
  refine ⟨_, step_NOT s h1, ?_⟩
  generalize op_NOT (fetch s).1 (fetch s).2 = s1 at v1 o1 m1
  rintro ⟨n1, n2, n3⟩
  obtain ⟨l1, l2, l3, l4, -⟩ := op_NOT_spec (fetch s1).1 (fetch s1).2
  have hpc1 : s1.reg R_PC ≠ MR_KBSR := fetch_pc_ne_kbsr s1 (by omega) (by omega)
  rw [n2, n3] at l1
  rw [n2] at l2 l3
  have v2 : (op_NOT (fetch s1).1 (fetch s1).2).reg ((fetch s).1 / 512 % 8) =
      s.reg ((fetch s).1 / 64 % 8) := by
    rw [l1, fetch_reg_general _ _ hdr7, v1, xor_FFFF _ (by omega)]
    omega
  have o2 : ∀ r, r ≠ (fetch s).1 / 512 % 8 → r ≠ R_COND → r ≠ R_PC →
      (op_NOT (fetch s1).1 (fetch s1).2).reg r = s.reg r := by
    intro r a b c
    rw [l3 r a b, fetch_reg_general _ _ c, o1 r a b c]
  have c2 : (op_NOT (fetch s1).1 (fetch s1).2).reg R_COND =
      flag_of (s.reg ((fetch s).1 / 64 % 8)) := by
    rw [l2, v2]
  refine ⟨_, step_NOT s1 n1, v2, c2, ?_, ?_, ?_⟩
  · intro r hr
    by_cases hc : r = R_COND
    · rw [hc, c2, update_flags_flag_of _ _ (by simpa using hw)]
      simp
    · rw [update_flags_reg _ _ _ hc]
      by_cases hd : r = (fetch s).1 / 512 % 8
      · rw [hd, v2]; simp
      · rw [o2 r hd hc hr]; simp [hd]
  · rw [l4, fetch_state s1 hpc1]
    exact m1
  · intro r hr hd
    exact o2 r hd (by unfold R_COND; omega) (by unfold R_PC; omega)

/-- Witness for C12: `NOT R1,R2` then `NOT R1,R1` with R2 = 0x8001 leaves
R1 = 0x8001 and COND = N. -/
theorem c12_not_not_witness :
    ∃ s1 s2, step not_not_state = some s1 ∧ step s1 = some s2 ∧
      s2.reg 1 = 0x8001 ∧ s2.reg R_COND = FL_NEG := by
  obtain ⟨s1, h1, h2⟩ := c12_not_not not_not_state (by decide) (by decide)
  have a1 : (step not_not_state).map (fun t => (fetch t).1) = some 0x927F := by decide
  rw [h1] at a1
  simp only [Option.map_some', Option.some.injEq] at a1
  obtain ⟨s2, g1, g2, g3, -⟩ := h2 (by rw [a1]; decide)
  exact ⟨s1, s2, h1, g1, g2.trans (by decide), g3.trans (by decide)⟩

/-- C13: for every memory state, when `check_key()` reports that no key is
available, `mem_read(0xFE00)` returns 0, sets memory[0xFE00] to 0, consumes no
input byte, and leaves memory[0xFE02] (KBDR) and every other cell unchanged;
registers and output are untouched as well. -/
theorem c13_kbsr_no_key (s : VM) (hk : (check_key s).1 = 0) :
    (mem_read 0xFE00 s).1 = 0 ∧
    (mem_read 0xFE00 s).2.memory 0xFE00 = 0 ∧
    (mem_read 0xFE00 s).2.stdin = s.stdin ∧
    (mem_read 0xFE00 s).2.memory 0xFE02 = s.memory 0xFE02 ∧
    (∀ a, a ≠ 0xFE00 → (mem_read 0xFE00 s).2.memory a = s.memory a) ∧
    (mem_read 0xFE00 s).2.reg = s.reg ∧ (mem_read 0xFE00 s).2.stdout = s.stdout := by
  have e : mem_read 0xFE00 s =
      (0, { (check_key s).2 with memory := store (check_key s).2.memory MR_KBSR 0 }) := by
    unfold mem_read
    simp [MR_KBSR, hk]
  obtain ⟨c1, c2, c3, c4, -⟩ := check_key_frame s
  rw [e]
  refine ⟨rfl, ?_, c3, ?_, ?_, c2, c4⟩
  · simp [MR_KBSR]
  · simp [MR_KBSR, c1]
  · intro a ha
    simp [MR_KBSR, ha, c1]

/-- Witness for C13: a console with no pending key and KBSR holding 0x8000 from
an earlier poll. -/
theorem c13_kbsr_no_key_witness :
    (check_key (state_of (store (store (fun _ => 0) 0xFE00 0x8000) 0xFE02 0x41)
      (fun _ => 0))).1 = 0 ∧
    (mem_read 0xFE00 (state_of (store (store (fun _ => 0) 0xFE00 0x8000) 0xFE02 0x41)
      (fun _ => 0))).1 = 0 ∧
    (mem_read 0xFE00 (state_of (store (store (fun _ => 0) 0xFE00 0x8000) 0xFE02 0x41)
      (fun _ => 0))).2.memory 0xFE02 = 0x41 :=
  ⟨by decide,
    (c13_kbsr_no_key (state_of (store (store (fun _ => 0) 0xFE00 0x8000) 0xFE02 0x41)
      (fun _ => 0)) (by decide)).1,
    (c13_kbsr_no_key (state_of (store (store (fun _ => 0) 0xFE00 0x8000) 0xFE02 0x41)
      (fun _ => 0)) (by decide)).2.2.2.1.trans (by decide)⟩

/-- C14: every address other than KBSR (0xFE00) is plain RAM and writes are
never virtualized.  For every address a other than 0xFE00, `mem_read(a)` returns
memory[a] and leaves the whole state, console included, as it was; for every a
and v, `mem_write(a, v)` changes exactly cell a (and nothing else of the
state); and a following `mem_read(a)` with a other than 0xFE00 returns v. -/
theorem c14_plain_ram (s : VM) (a v : Nat) :
    (a ≠ 0xFE00 → mem_read a s = (s.memory a, s)) ∧
    ((mem_write a v s).memory a = v ∧
      (∀ x, x ≠ a → (mem_write a v s).memory x = s.memory x) ∧
      (mem_write a v s).reg = s.reg ∧ (mem_write a v s).keys = s.keys ∧
      (mem_write a v s).stdin = s.stdin ∧ (mem_write a v s).stdout = s.stdout ∧
      (mem_write a v s).running = s.running) ∧
    (a ≠ 0xFE00 → (mem_read a (mem_write a v s)).1 = v) := by
  refine ⟨fun ha => mem_read_plain a s ha, ⟨?_, ?_, rfl, rfl, rfl, rfl, rfl⟩, ?_⟩
  · simp [mem_write]
  · intro x hx
    simp [mem_write, hx]
  · intro ha
    rw [mem_read_plain _ _ ha]
    simp [mem_write]

/-- Witness for C14: KBDR (0xFE02) reads back as plain RAM. -/
theorem c14_plain_ram_witness :
    (0xFE02 ≠ 0xFE00) ∧
    (mem_read 0xFE02 (mem_write 0xFE02 0x1234 (state_of (fun _ => 0) (fun _ => 0)))).1
      = 0x1234 :=
  ⟨by decide,
    (c14_plain_ram (state_of (fun _ => 0) (fun _ => 0)) 0xFE02 0x1234).2.2 (by decide)⟩

/-- C15: COND changes only through the flag-updating path.  For every state of
16-bit words and every fetched instruction whose opcode is BR, ST, JSR/JSRR,
STR, RTI, JMP, RES, STI, or TRAP with a vector other than GETC (0x20) and
IN (0x23), COND after the instruction equals COND before it (and the
instruction does have a result unless it is a string trap); for ADD, LD,
AND, LDR, NOT, LDI, LEA the instruction has a result and COND afterwards is
the N/Z/P flag of the value just written to the destination register
bits[11:9]; for GETC and IN likewise with destination R0. -/
theorem c15_cond_frame (s : VM) (hwf : WF s) :
    (((fetch s).1 / 4096 = 0 ∨ (fetch s).1 / 4096 = 3 ∨ (fetch s).1 / 4096 = 4 ∨
        (fetch s).1 / 4096 = 7 ∨ (fetch s).1 / 4096 = 8 ∨ (fetch s).1 / 4096 = 12 ∨
        (fetch s).1 / 4096 = 13 ∨ (fetch s).1 / 4096 = 11 ∨
        ((fetch s).1 / 4096 = 15 ∧ (fetch s).1 % 256 ≠ 0x20 ∧ (fetch s).1 % 256 ≠ 0x23)) →
      (∀ s', step s = some s' → s'.reg R_COND = s.reg R_COND) ∧
      (¬ is_string_trap (fetch s).1 → ∃ s', step s = some s')) ∧
    (((fetch s).1 / 4096 = 1 ∨ (fetch s).1 / 4096 = 2 ∨ (fetch s).1 / 4096 = 5 ∨
        (fetch s).1 / 4096 = 6 ∨ (fetch s).1 / 4096 = 9 ∨ (fetch s).1 / 4096 = 10 ∨
        (fetch s).1 / 4096 = 14) →
      ∃ s', step s = some s' ∧ s'.reg R_COND = flag_of (s'.reg ((fetch s).1 / 512 % 8))) ∧
    (((fetch s).1 / 4096 = 15 ∧ ((fetch s).1 % 256 = 0x20 ∨ (fetch s).1 % 256 = 0x23)) →
      ∃ s', step s = some s' ∧ s'.reg R_COND = flag_of (s'.reg R_R0)) := by
  have hm := fetch_memory_lt s hwf.1
  have hr := fetch_reg_lt s hwf.2
  have hex := (exec_of_op (fetch s).1 (fetch s).2)
  refine ⟨?_, ?_, ?_⟩
  · intro h
    refine ⟨?_, fun hs => exec_isSome _ _ (fetch_lt s hwf.1) hs⟩
    intro s' he
    rcases h with h | h | h | h | h | h | h | h | ⟨h, hg, hi⟩
    · rw [step_BR s h] at he; cases he
      rw [op_BR_cond, fetch_cond]
    · unfold step at he
      rw [hex.2.2.2.1 (by rw [shr_12]; exact h)] at he; cases he
      rw [op_ST_cond, fetch_cond]
    · rw [step_JSR s h] at he; cases he
      rw [op_JSR_cond, fetch_cond]
    · unfold step at he
      rw [hex.2.2.2.2.2.2.2.1 (by rw [shr_12]; exact h)] at he; cases he
      rw [op_STR_cond, fetch_cond]
    · rw [step_RTI s h] at he; cases he
      rw [fetch_cond]
    · rw [step_JMP s h] at he; cases he
      rw [op_JMP_cond, fetch_cond]
    · rw [step_RES s h] at he; cases he
      rw [fetch_cond]
    · unfold step at he
      rw [hex.2.2.2.2.2.2.2.2.2.2.2.1 (by rw [shr_12]; exact h)] at he; cases he
      rw [op_STI_cond, fetch_cond]
    · rw [step_TRAP s h] at he
      rw [op_TRAP_cond _ _ _ hg hi he, fetch_cond]
  · intro h
    rcases h with h | h | h | h | h | h | h
    · exact ⟨_, step_ADD s h, (op_ADD_spec _ _).2⟩
    · exact ⟨_, step_LD s h, op_LD_flag _ _ hm⟩
    · exact ⟨_, step_AND s h, op_AND_flag _ _ hr⟩
    · exact ⟨_, step_LDR s h, op_LDR_flag _ _ hm⟩
    · exact ⟨_, step_NOT s h, (op_NOT_spec _ _).2.1⟩
    · exact ⟨_, step_LDI s h, op_LDI_flag _ _ hm⟩
    · exact ⟨_, step_LEA s h, op_LEA_flag _ _⟩
  · rintro ⟨h, hv | hv⟩
    · obtain ⟨s', e, -, c, -⟩ := op_TRAP_GETC (fetch s).1 (fetch s).2 hv
      exact ⟨s', by rw [step_TRAP s h]; exact e, c⟩
    · obtain ⟨s', e, -, c, -⟩ := op_TRAP_IN (fetch s).1 (fetch s).2 hv
      exact ⟨s', by rw [step_TRAP s h]; exact e, c⟩

/-- Witness for C15: from reset, `LD R3, +1` (0x2601) loads the word 0x8000 and
leaves COND = N, its flag. -/
theorem c15_cond_frame_witness :
    ∃ s', step (reset (store (store (fun _ => 0) 0x3000 0x2601) 0x3002 0x8000) [] []) = some s' ∧
      s'.reg 3 = 0x8000 ∧ s'.reg R_COND = FL_NEG := by
  have hwf : WF (reset (store (store (fun _ => 0) 0x3000 0x2601) 0x3002 0x8000) [] []) := by
    constructor
    · intro a
      simp only [reset, store]
      split_ifs <;> norm_num
    · intro r
      simp only [reset, store, PC_START, FL_ZRO]
      split_ifs <;> norm_num
  obtain ⟨s', e, c⟩ := (c15_cond_frame _ hwf).2.1 (Or.inr (Or.inl (by decide)))
  have a : (step (reset (store (store (fun _ => 0) 0x3000 0x2601) 0x3002 0x8000) [] [])).map
      (fun t => t.reg 3) = some 0x8000 := by decide
  rw [e] at a
  simp only [Option.map_some', Option.some.injEq] at a
  have f : (fetch (reset (store (store (fun _ => 0) 0x3000 0x2601) 0x3002 0x8000) [] [])).1
      / 512 % 8 = 3 := by decide
  rw [f, a] at c
  exact ⟨s', e, a, c.trans (by decide)⟩

/-- C16: JSR then RET.  For every state and every JSR instruction (opcode 0x4
with bit 11 set) fetched at address a, after it executes R7 = a+1 mod 2^16 (the
return address) and PC = a + 1 + sext11(bits[10:0]) mod 2^16; when the two
instructions fetched next are NOT R0,R0 and JMP R7, then after executing them
PC = a+1 mod 2^16 and R0 is the bitwise complement (65535 - x on 16 bits) of
its value x at the call. -/
theorem c16_jsr_ret (s : VM) (hw : s.reg R_R0 < 65536)
    (hop : (fetch s).1 / 4096 = 4) (hb : (fetch s).1 / 2048 % 2 = 1) :
    ∃ s1, step s = some s1 ∧
      s1.reg R_R7 = (s.reg R_PC + 1) % 65536 ∧
      (s1.reg R_PC : Int) =
        ((s.reg R_PC : Int) + 1 +
          (if (fetch s).1 % 2048 < 1024 then (((fetch s).1 % 2048 : Nat) : Int)
           else (((fetch s).1 % 2048 : Nat) : Int) - 2048)) % 65536 ∧
      ((fetch s1).1 / 4096 = 9 ∧ (fetch s1).1 / 512 % 8 = 0 ∧ (fetch s1).1 / 64 % 8 = 0 →
        ∃ s2, step s1 = some s2 ∧
          ((fetch s2).1 / 4096 = 12 ∧ (fetch s2).1 / 64 % 8 = 7 →
            ∃ s3, step s2 = some s3 ∧
              s3.reg R_PC = (s.reg R_PC + 1) % 65536 ∧
              s3.reg R_R0 = 65535 - s.reg R_R0)) := by
  obtain ⟨j1, j2, -, -, j5, -⟩ := op_JSR_spec (fetch s).1 (fetch s).2
  have r7 : (op_JSR (fetch s).1 (fetch s).2).reg R_R7 = (s.reg R_PC + 1) % 65536 := by
    rw [j1, fetch_reg_pc]
  have r0 : (op_JSR (fetch s).1 (fetch s).2).reg R_R0 = s.reg R_R0 := by
    rw [j5 R_R0 (by decide) (by decide), fetch_reg_general _ _ (by decide)]
  refine ⟨_, step_JSR s hop, r7, ?_, ?_⟩
  · rw [j2 hb, fetch_reg_pc, sign_extend_11 _ (Nat.mod_lt _ (by norm_num))]
    split_ifs <;> omega
  · generalize op_JSR (fetch s).1 (fetch s).2 = s1 at r7 r0
    rintro ⟨n1, n2, n3⟩
    obtain ⟨k1, -, k3, -⟩ := op_NOT_spec (fetch s1).1 (fetch s1).2
    rw [n2, n3] at k1
    rw [n2] at k3
    have q0 : (op_NOT (fetch s1).1 (fetch s1).2).reg R_R0 = 65535 - s.reg R_R0 := by
      rw [show R_R0 = 0 from rfl, k1, fetch_reg_general _ _ (by decide),
        ← show R_R0 = 0 from rfl, r0, xor_FFFF _ hw]
    have q7 : (op_NOT (fetch s1).1 (fetch s1).2).reg R_R7 = (s.reg R_PC + 1) % 65536 := by
      rw [k3 R_R7 (by decide) (by decide), fetch_reg_general _ _ (by decide), r7]
    refine ⟨_, step_NOT s1 n1, ?_⟩
    generalize op_NOT (fetch s1).1 (fetch s1).2 = s2 at q0 q7
    rintro ⟨m1, m2⟩
    obtain ⟨p1, p2, -⟩ := op_JMP_spec (fetch s2).1 (fetch s2).2
    refine ⟨_, step_JMP s2 m1, ?_, ?_⟩
    · rw [p1, m2, fetch_reg_general _ _ (by decide)]
      exact q7
    · rw [p2 R_R0 (by decide), fetch_reg_general _ _ (by decide)]
      exact q0

/-- Witness for C16: `JSR +2` (0x4802) at 0x3000 with R0 = 0x00FF; the routine at
0x3003 is `NOT R0,R0` (0x903F), `JMP R7` (0xC1C0).  Control is back at 0x3001 with
R0 = 0xFF00. -/
theorem c16_jsr_ret_witness :
    ∃ s1 s2 s3, step jsr_ret_state = some s1 ∧ step s1 = some s2 ∧ step s2 = some s3 ∧
      s1.reg R_R7 = 0x3001 ∧ s3.reg R_PC = 0x3001 ∧ s3.reg R_R0 = 0xFF00 := by
  obtain ⟨s1, h1, h2, -, h4⟩ := c16_jsr_ret jsr_ret_state (by decide) (by decide) (by decide)
  have a1 : (step jsr_ret_state).map (fun t => ((fetch t).1, t.running))
      = some (0x903F, true) := by decide
  rw [h1] at a1
  simp only [Option.map_some', Option.some.injEq, Prod.mk.injEq] at a1
  obtain ⟨s2, g1, g2⟩ := h4 (by rw [a1.1]; decide)
  have a2 : (iterate 2 jsr_ret_state).map (fun t => (fetch t).1) = some 0xC1C0 := by decide
  have hr : jsr_ret_state.running = true := rfl
  simp only [iterate, hr, if_true, h1, Option.some_bind, a1.2, g1, Option.map_some',
    Option.some.injEq] at a2
  obtain ⟨s3, e1, e2, e3⟩ := g2 (by rw [a2]; decide)
  exact ⟨s1, s2, s3, h1, g1, e1, h2.trans (by decide), e2.trans (by decide),
    e3.trans (by decide)⟩

/-- C17 (counterexample): from reset the program `LD R1,+1; JMP R1` reaches
PC = 0xFE00 in two passes, with memory[0xFE02] = 0 and the byte 0x41 waiting.
The third pass fetches at KBSR with a key pending: the word fetched is 0x8000,
an RTI, and after it memory[0xFE00] = 0x8000, memory[0xFE02] = 0x41 and the
input byte has been consumed. -/
theorem c17_no_effect_counterexample :
    (iterate 2 (reset (kbsr_jump_memory 0) [true] [0x41])).map
      (fun t => (t.reg R_PC, (fetch t).1 / 4096, t.memory 0xFE00, t.memory 0xFE02, t.stdin))
      = some (0xFE00, 8, 0, 0, [0x41]) ∧
    (iterate 3 (reset (kbsr_jump_memory 0) [true] [0x41])).map
      (fun t => (t.reg R_PC, t.memory 0xFE00, t.memory 0xFE02, t.stdin))
      = some (0xFE01, 0x8000, 0x41, []) := by
  decide

/-- C17 (amended): instructions specified as having no effect have none beyond
the fetch.  For every state, executing RES (opcode 0xD), or RTI (opcode 0x8)
fetched at an address other than 0xFE00, changes nothing but PC (advanced by
one, modulo 2^16); executing a TRAP whose vector (instr & 0xFF) is not in
0x20..0x25 changes nothing but PC and the link R7 := advanced PC.  In these
cases memory, the other registers and COND are unchanged, no byte is output,
no input is consumed and the interpreter keeps running.  An RTI fetched at
0xFE00 adds nothing to what the fetch itself (the keyboard poll) has done. -/
theorem c17_no_effect (s : VM) :
    (((fetch s).1 / 4096 = 8 ∧ s.reg R_PC ≠ 0xFE00) ∨ (fetch s).1 / 4096 = 13 →
      step s = some { s with reg := store s.reg R_PC ((s.reg R_PC + 1) % 65536) }) ∧
    ((fetch s).1 / 4096 = 15 →
      ¬ (0x20 ≤ (fetch s).1 % 256 ∧ (fetch s).1 % 256 ≤ 0x25) →
      step s = some { s with reg :=
        (store (store s.reg R_PC ((s.reg R_PC + 1) % 65536)) R_R7
          ((s.reg R_PC + 1) % 65536)) }) ∧
    ((fetch s).1 / 4096 = 8 → step s = some (fetch s).2) := by
  refine ⟨?_, ?_, fun h => step_RTI s h⟩
  · rintro (⟨h8, hpc⟩ | h13)
    · rw [step_RTI s h8, fetch_state s hpc]
    · rw [step_RES s h13, fetch_state s (fetch_pc_ne_kbsr s (by omega) (by omega))]
  · intro h15 hv
    rw [step_TRAP s h15, op_TRAP_unknown _ _ hv,
      fetch_state s (fetch_pc_ne_kbsr s (by omega) (by omega))]
    simp

/-- Witness for C17: the unknown trap 0xF0FF at 0x3000 from reset only advances
PC and writes the link. -/
theorem c17_no_effect_witness :
    ((fetch (reset (store (fun _ => 0) 0x3000 0xF0FF) [] [0x41])).1 / 4096 = 15 ∧
      ¬ (0x20 ≤ (fetch (reset (store (fun _ => 0) 0x3000 0xF0FF) [] [0x41])).1 % 256 ∧
        (fetch (reset (store (fun _ => 0) 0x3000 0xF0FF) [] [0x41])).1 % 256 ≤ 0x25)) ∧
    (step (reset (store (fun _ => 0) 0x3000 0xF0FF) [] [0x41])).map
      (fun t => (t.reg R_PC, t.reg R_R7, t.reg R_COND, t.stdin, t.stdout, t.running))
      = some (0x3001, 0x3001, FL_ZRO, [0x41], [], true) := by
  refine ⟨by decide, ?_⟩
  rw [(c17_no_effect (reset (store (fun _ => 0) 0x3000 0xF0FF) [] [0x41])).2.1
    (by decide) (by decide)]
  rfl

/-- C18 (the code at input byte 0x80): from reset with `TRAP IN` (0xF023) at
0x3000 and the byte 0x80 on the input, R0 becomes 0xFF80 and COND = N, where
the claim has R0 = 0x0080 and COND = P; the output is the prompt followed by
the byte 0x80.  `TRAP GETC` (0xF020) on the same input leaves R0 = 0x0080,
COND = P and writes nothing. -/
theorem c18_in_high_byte :
    (step (reset (store (fun _ => 0) 0x3000 0xF023) [] [0x80])).map
      (fun t => (t.reg R_R0, t.reg R_COND, t.stdout))
      = some (0xFF80, FL_NEG, prompt ++ [0x80]) ∧
    (step (reset (store (fun _ => 0) 0x3000 0xF020) [] [0x80])).map
      (fun t => (t.reg R_R0, t.reg R_COND, t.stdout))
      = some (0x0080, FL_POS, []) := by
  decide

/-- C19: for every state in which some address z with R0 ≤ z ≤ 0xFFFF holds a
zero word, TRAP PUTS (0x22) terminates (the pass has a result, so the scan
never left the 65,536 cells of memory) and outputs exactly the low bytes of
memory[R0], memory[R0+1], ..., memory[z0-1] in that order, z0 being the least
such z; it modifies no memory cell and no register other than R7, set to the
advanced PC (PC itself having been advanced by the fetch).  Without a zero
word from R0 up to 0xFFFF the scan does not wrap to address 0: it runs past the
end of memory, and the pass has no result. -/
theorem c19_puts (s : VM) (hr0 : s.reg R_R0 < 65536)
    (hop : (fetch s).1 / 4096 = 15) (hv : (fetch s).1 % 256 = 0x22) :
    ((∃ z, s.reg R_R0 ≤ z ∧ z ≤ 0xFFFF ∧ s.memory z = 0) →
      ∃ z0, (s.reg R_R0 ≤ z0 ∧ z0 ≤ 0xFFFF ∧ s.memory z0 = 0) ∧
        (∀ x, s.reg R_R0 ≤ x → x < z0 → s.memory x ≠ 0) ∧
        ∃ s', step s = some s' ∧
          s'.stdout = s.stdout ++
            (List.range' (s.reg R_R0) (z0 - s.reg R_R0)).map (fun x => s.memory x % 256) ∧
          s'.memory = s.memory ∧
          s'.reg R_R7 = (s.reg R_PC + 1) % 65536 ∧ s'.reg R_PC = (s.reg R_PC + 1) % 65536 ∧
          (∀ r, r ≠ R_R7 → r ≠ R_PC → s'.reg r = s.reg r) ∧
          s'.stdin = s.stdin ∧ s'.keys = s.keys ∧ s'.running = s.running) ∧
    ((∀ x, s.reg R_R0 ≤ x → x ≤ 0xFFFF → s.memory x ≠ 0) → step s = none) := by
  have hpc := fetch_pc_ne_kbsr s (by omega) (by omega)
  have hst : step s = (puts_loop s.memory (MEMORY_MAX - s.reg R_R0) (s.reg R_R0) s.stdout).map
      (fun out =>
        { s with
          reg := store (store s.reg R_PC ((s.reg R_PC + 1) % 65536)) R_R7 ((s.reg R_PC + 1) % 65536)
          stdout := out }) := by
    rw [step_TRAP s hop, op_TRAP_PUTS _ _ hv, fetch_state s hpc]
    simp only [store_same, store_other _ R_PC R_R0 _ (by decide)]
  constructor
  · intro hz
    obtain ⟨h1, h2, h3⟩ := Nat.find_spec hz
    have hnz : ∀ x, s.reg R_R0 ≤ x → x < Nat.find hz → s.memory x ≠ 0 := by
      intro x hx1 hx2 hx3
      exact Nat.find_min hz hx2 ⟨hx1, by omega, hx3⟩
    refine ⟨Nat.find hz, ⟨h1, h2, h3⟩, hnz, ?_⟩
    rw [hst, puts_loop_spec s.memory (Nat.find hz) _ _ _ h1 (by unfold MEMORY_MAX; omega) h3 hnz]
    refine ⟨_, rfl, rfl, rfl, ?_, ?_, ?_, rfl, rfl, rfl⟩
    · simp
    · simp [R_PC, R_R7]
    · intro r h7 hp
      simp [h7, hp]
  · intro hnz
    rw [hst, puts_loop_none s.memory _ _ _ (fun x hx1 hx2 => hnz x hx1
      (by unfold MEMORY_MAX at hx2; omega))]
    rfl

/-- Witness for C19: `TRAP PUTS` at 0x3000 with R0 = 0x4000 and the words 'H',
'I', 0 from 0x4000 on prints "HI". -/
theorem c19_puts_witness :
    (puts_state.reg R_R0 < 65536 ∧ (fetch puts_state).1 / 4096 = 15 ∧
      (fetch puts_state).1 % 256 = 0x22 ∧
      ∃ z, puts_state.reg R_R0 ≤ z ∧ z ≤ 0xFFFF ∧ puts_state.memory z = 0) ∧
    ∃ s', step puts_state = some s' ∧ s'.stdout = [0x48, 0x49] ∧ s'.reg R_R7 = 0x3001 := by
  have hz : ∃ z, puts_state.reg R_R0 ≤ z ∧ z ≤ 0xFFFF ∧ puts_state.memory z = 0 :=
    ⟨0x4002, by decide, by decide, by decide⟩
  refine ⟨⟨by decide, by decide, by decide, hz⟩, ?_⟩
  obtain ⟨z0, ⟨a1, -, a3⟩, hmin, s', e, o, -, r7, -⟩ :=
    (c19_puts puts_state (by decide) (by decide) (by decide)).1 hz
  have r0 : puts_state.reg R_R0 = 0x4000 := by decide
  rw [r0] at a1 hmin o
  have hz0 : z0 = 0x4002 := by
    rcases Nat.lt_trichotomy z0 0x4002 with h | h | h
    · have : z0 = 0x4000 ∨ z0 = 0x4001 := by omega
      rcases this with h' | h' <;> rw [h'] at a3 <;> exact absurd a3 (by decide)
    · exact h
    · exact absurd (by decide) (hmin 0x4002 (by decide) h)
  rw [hz0] at o
  exact ⟨s', e, o.trans (by decide), r7.trans (by decide)⟩

/-- C20: JSRR reads its base register after the link is written.  For every
state and every JSRR instruction (opcode 0x4 with bit 11 clear) fetched at
address a, with base register r = bits[8:6]: afterwards R7 = a+1 mod 2^16, and
PC is the value reg[r] had before the instruction when r is not 7, but a+1 mod
2^16 (not the old R7) when r = 7, so JSRR R7 falls through to the next
instruction. -/
theorem c20_jsrr (s : VM) (hop : (fetch s).1 / 4096 = 4) (hb : (fetch s).1 / 2048 % 2 = 0) :
    ∃ s', step s = some s' ∧
      s'.reg R_R7 = (s.reg R_PC + 1) % 65536 ∧
      ((fetch s).1 / 64 % 8 ≠ 7 → s'.reg R_PC = s.reg ((fetch s).1 / 64 % 8)) ∧
      ((fetch s).1 / 64 % 8 = 7 → s'.reg R_PC = (s.reg R_PC + 1) % 65536) := by
  obtain ⟨j1, -, j3, j4, -⟩ := op_JSR_spec (fetch s).1 (fetch s).2
  refine ⟨_, step_JSR s hop, ?_, ?_, ?_⟩
  · rw [j1, fetch_reg_pc]
  · intro h7
    rw [j3 hb h7, fetch_reg_general _ _ (by unfold R_PC; omega)]
  · intro h7
    rw [j4 hb h7, fetch_reg_pc]

/-- Witness for C20: `JSRR R7` (0x41C0) at 0x3000 with R7 = 0x4000 falls through
to 0x3001. -/
theorem c20_jsrr_witness :
    ((fetch (state_of (store (fun _ => 0) 0x3000 0x41C0)
        (store (store (fun _ => 0) R_R7 0x4000) R_PC 0x3000))).1 / 4096 = 4 ∧
      (fetch (state_of (store (fun _ => 0) 0x3000 0x41C0)
        (store (store (fun _ => 0) R_R7 0x4000) R_PC 0x3000))).1 / 2048 % 2 = 0) ∧
    ∃ s', step (state_of (store (fun _ => 0) 0x3000 0x41C0)
        (store (store (fun _ => 0) R_R7 0x4000) R_PC 0x3000)) = some s' ∧
      s'.reg R_R7 = 0x3001 ∧ s'.reg R_PC = 0x3001 := by
  refine ⟨by decide, ?_⟩
  obtain ⟨s', h1, h2, -, h4⟩ := c20_jsrr (state_of (store (fun _ => 0) 0x3000 0x41C0)
    (store (store (fun _ => 0) R_R7 0x4000) R_PC 0x3000)) (by decide) (by decide)
  exact ⟨s', h1, h2.trans (by decide), (h4 (by decide)).trans (by decide)⟩

end LC3
